import Mathlib

/-!
Verification of the shopify-analytics-backend order-reconciliation pipeline
(`src/server.js`) against its specification.

The JavaScript source is shallowly embedded: JS numbers are modelled as
exact rationals (`ℚ`), JS strings as Lean `String`s, JS objects used as
string-keyed maps as insertion-ordered association lists, and JS `Set`s as
lists with membership tests.  String primitives used by the source
(`toLowerCase`, `trim`, `split(c)[0]`, `replace(c,'')`, `startsWith`,
`includes`, lexicographic `<=`) are re-implemented by structural recursion
on the character list so that all definitions evaluate inside the kernel.
Platform services (URL parsing, timezone conversion of timestamps, HTTP)
are external collaborators: their *results* appear as fields of the input
records (e.g. the `utm_campaign` parameter of a parsed landing page, the
IST calendar-date string of an order's creation timestamp).
-/

/-! ## Character/string primitives (models of the JS string methods) -/

/-- Model of JS `toLowerCase` on one character (ASCII range, which is the
only range the data exercises). -/
def lowerChar (c : Char) : Char :=
  if c.toNat ≥ 65 && c.toNat ≤ 90 then Char.ofNat (c.toNat + 32) else c

/-- Model of JS `String.prototype.toLowerCase`. -/
def lowerStr (s : String) : String := ⟨s.data.map lowerChar⟩

/-- Characters strictly before the first occurrence of `c`. -/
def takeUntilChar (c : Char) : List Char → List Char
  | [] => []
  | x :: xs => if x = c then [] else x :: takeUntilChar c xs

/-- Model of JS `s.split(c)[0]`: the prefix before the first occurrence of
`c` (the whole string when `c` does not occur). -/
def beforeChar (c : Char) (s : String) : String := ⟨takeUntilChar c s.data⟩

/-- Remove the first occurrence of `c`, if any. -/
def removeFirstChar (c : Char) : List Char → List Char
  | [] => []
  | x :: xs => if x = c then xs else x :: removeFirstChar c xs

/-- Model of JS `s.replace('#','')`: deletes the first `'#'` only. -/
def removeFirstHash (s : String) : String := ⟨removeFirstChar '#' s.data⟩

/-- Trim leading and trailing whitespace from a character list. -/
def trimChars (l : List Char) : List Char :=
  List.dropWhile Char.isWhitespace
    ((List.dropWhile Char.isWhitespace l.reverse).reverse)

/-- Model of JS `String.prototype.trim`. -/
def trimStr (s : String) : String := ⟨trimChars s.data⟩

/-- Model of JS `s.startsWith(pre)`. -/
def startsWithB (s pre : String) : Bool := pre.data.isPrefixOf s.data

/-- Does `pat` occur as a contiguous substring of the second list? -/
def containsSub (pat : List Char) : List Char → Bool
  | [] => pat.isEmpty
  | x :: xs => pat.isPrefixOf (x :: xs) || containsSub pat xs

/-- Model of JS `s.includes(pat)`. -/
def strContainsB (s pat : String) : Bool := containsSub pat.data s.data

/-- Lexicographic `≤` on character lists, by code point. -/
def charListLe : List Char → List Char → Bool
  | [], _ => true
  | _ :: _, [] => false
  | a :: as, b :: bs => if a = b then charListLe as bs else decide (a.toNat < b.toNat)

/-- Model of JS `a <= b` on strings (lexicographic by code unit; the data
compared are ASCII `YYYY-MM-DD` strings, where code units and code points
coincide). -/
def strLe (a b : String) : Bool := charListLe a.data b.data

/-- Model of JS `x || default` for a possibly-absent string value:
`undefined`/`null` and the empty string are falsy. -/
def jsOrStr (x : Option String) (d : String) : String :=
  match x with
  | some s => if s = "" then d else s
  | none => d

/-! ## Association-list and set models of JS objects and `Set` -/

/-- Lookup in a string-keyed association list (model of `obj[k]`,
`undefined` ↦ `none`). -/
def lookupA {V : Type} (k : String) : List (String × V) → Option V
  | [] => none
  | (k', v) :: rest => if k' = k then some v else lookupA k rest

/-- Model of `obj[k] = f(obj[k] ?? d)`: update the entry for `k` in place,
appending a fresh entry at the end when `k` is absent (JS objects preserve
insertion order for string keys). -/
def updateAList {V : Type} (k : String) (f : V → V) (d : V) :
    List (String × V) → List (String × V)
  | [] => [(k, f d)]
  | (k', v) :: rest =>
      if k' = k then (k', f v) :: rest else (k', v) :: updateAList k f d rest

/-! ## Data model (§3 of the spec) -/

/-- One Shopify line item (`order.line_items[i]`).  `price` is the parsed
numeric price; `quantity` is integral in the data. -/
structure LineItem where
  name : String
  sku : Option String
  variant_id : Option String
  price : ℚ
  quantity : ℕ
  deriving DecidableEq

/-- The landing page of an order as seen through the platform URL parser:
absent (`undefined`/empty, JS-falsy), present but unparseable (the `URL`
constructor throws), or parsed with the value of its `utm_campaign` query
parameter (if any). -/
inductive LandingSite where
  | absent : LandingSite
  | malformed : LandingSite
  | parsed : Option String → LandingSite
  deriving DecidableEq

/-- One Shopify order.  `createdAtIST` is the Asia/Kolkata calendar-date
string of `created_at` (the `toLocaleDateString('en-CA', ...)` conversion,
performed by the platform). -/
structure Order where
  id : ℕ
  name : Option String
  order_number : String
  createdAtIST : String
  payment_gateway_names : Option (List String)
  total_price : ℚ
  landing_site : LandingSite
  line_items : Option (List LineItem)
  deriving DecidableEq

/-- One entry of the `shiprocketMap` built in the analytics route:
`status` is the raw provider status code of the first shipment (may be
absent), `mainStatus` the lower-cased textual order status, and
`pickupTimestamp` the raw pickup timestamp string (may be absent). -/
structure ShiprocketRecord where
  status : Option ℕ
  mainStatus : String
  pickupTimestamp : Option String
  deriving DecidableEq

/-! ## OrderClassifier (§4.3): `isCOD` -/

/-- `order.payment_gateway_names?.some(gw => gw.toLowerCase().includes('cod')
|| gw.toLowerCase().includes('cash on delivery'))`; an absent list is falsy. -/
def isCOD (o : Order) : Bool :=
  match o.payment_gateway_names with
  | none => false
  | some gws =>
      gws.any fun gw =>
        strContainsB (lowerStr gw) "cod" || strContainsB (lowerStr gw) "cash on delivery"

/-! ## ProductAttributor (§4.2): `extractProductFromUTM`, `getAttributedProduct` -/

/-- `utmCampaign.split('_')[0].trim().toLowerCase()`. -/
def utmPrefixOf (c : String) : String := lowerStr (trimStr (beforeChar '_' c))

/-- `extractProductFromUTM(landingPageUrl)`: `null` for an absent or
unparseable URL or an absent/empty (falsy) `utm_campaign` parameter;
otherwise the normalized prefix before the first `'_'`. -/
def extractProductFromUTM : LandingSite → Option String
  | LandingSite.absent => none
  | LandingSite.malformed => none
  | LandingSite.parsed none => none
  | LandingSite.parsed (some c) => if c = "" then none else some (utmPrefixOf c)

/-- `productName.toLowerCase().split('™')[0].split('–')[0].trim()` — the
normalization applied to product names throughout the source. -/
def normalizeName (s : String) : String :=
  trimStr (beforeChar '–' (beforeChar '™' (lowerStr s)))

/-- `parseFloat(item.price) * item.quantity`. -/
def itemRevenue (it : LineItem) : ℚ := it.price * it.quantity

/-- The `revenueMap` object built for a multi-line-item order: revenue per
normalized product name, in first-seen key order. -/
def revenueMap (items : List LineItem) : List (String × ℚ) :=
  items.foldl
    (fun m it => updateAList (normalizeName it.name) (fun r => r + itemRevenue it) 0 m) []

/-- `Object.entries(revenueMap).sort((a,b) => b[1]-a[1])[0]`: the entry with
maximal revenue, first in insertion order among ties (JS sort is stable). -/
def topPair : List (String × ℚ) → Option (String × ℚ)
  | [] => none
  | x :: xs => some (xs.foldl (fun best y => if y.2 > best.2 then y else best) x)

/-- Total revenue of the revenue map
(`Object.values(revenueMap).reduce((a,b) => a+b, 0)`). -/
def totalBucketRevenue (m : List (String × ℚ)) : ℚ := (m.map (fun kv => kv.2)).sum

/-- The line-item part of `getAttributedProduct` (steps 2 and 3 of §4.2). -/
def attributeFromLineItems : List LineItem → Option String
  | [] => none
  | [it] => some (normalizeName it.name)
  | items =>
      let m := revenueMap items
      match topPair m with
      | none => none
      | some top =>
          if top.2 / totalBucketRevenue m > 1/2 then some top.1 else none

/-- `getAttributedProduct(order)`.  A JS-falsy (empty) UTM extraction falls
through to the line-item heuristics, mirroring `if (utmProduct)`. -/
def getAttributedProduct (o : Order) : Option String :=
  match extractProductFromUTM o.landing_site with
  | some p => if p = "" then attributeFromLineItems (o.line_items.getD []) else some p
  | none => attributeFromLineItems (o.line_items.getD [])

/-- The attributed product as the JS truthiness guards see it
(`if (attributedProduct)`, `if (!attributedProduct) return`): a returned
empty-string key is falsy and counts as no attribution. -/
def truthyAttributed (o : Order) : Option String :=
  match getAttributedProduct o with
  | some p => if p = "" then none else some p
  | none => none

/-! ## PredictiveRateCalculator (§4.5): `calculatePredictiveRates` -/

/-- `shiprocketMap[order.name?.replace('#','')]` (an absent `name` yields an
absent record). -/
def shiprocketOf (srMap : String → Option ShiprocketRecord) (o : Order) :
    Option ShiprocketRecord :=
  match o.name with
  | some n => srMap (removeFirstHash n)
  | none => none

/-- The guard of the RTO block: COD, shipment record present, pickup
timestamp truthy and not the `'0000-00-00 00:00:00'` sentinel, and its date
part (before the first space) inside `[rtoStart, rtoEnd]` as strings. -/
def rtoHitOf (srMap : String → Option ShiprocketRecord)
    (rtoStart rtoEnd : String) (o : Order) : Bool :=
  isCOD o &&
    match shiprocketOf srMap o with
    | some r =>
        match r.pickupTimestamp with
        | some ts =>
            !(ts == "") && !(ts == "0000-00-00 00:00:00") &&
              (strLe rtoStart (beforeChar ' ' ts) && strLe (beforeChar ' ' ts) rtoEnd)
        | none => false
    | none => false

/-- `!(shiprocket.status === 6 || shiprocket.status === 7)` — evaluated only
under `rtoHitOf`, where the record is present. -/
def notDeliveredOf (srMap : String → Option ShiprocketRecord) (o : Order) : Bool :=
  match shiprocketOf srMap o with
  | some r => !(r.status == some 6 || r.status == some 7)
  | none => true

/-- The guard of the cancellation block: IST creation date inside
`[cancelStart, cancelEnd]` as strings. -/
def cancelHitOf (cancelStart cancelEnd : String) (o : Order) : Bool :=
  strLe cancelStart o.createdAtIST && strLe o.createdAtIST cancelEnd

/-- `shiprocket && (mainStatus === 'canceled' || mainStatus === 'cancelled'
|| shiprocket.status === 8)`. -/
def cancelledOf (srMap : String → Option ShiprocketRecord) (o : Order) : Bool :=
  match shiprocketOf srMap o with
  | some r => r.mainStatus == "canceled" || r.mainStatus == "cancelled" || r.status == some 8
  | none => false

/-- The four per-product counters of `productRates[p]`. -/
structure RateCounters where
  rtoTotal : ℕ
  rtoNotDelivered : ℕ
  cancelTotal : ℕ
  cancelCancelled : ℕ
  deriving DecidableEq

def zeroCounters : RateCounters := ⟨0, 0, 0, 0⟩

/-- The two conditional increments performed on `productRates[p]` for one
order, with the four guards precomputed. -/
def bumpCounters (rtoHit notDelivered cancelHit cancelled : Bool)
    (d : RateCounters) : RateCounters :=
  let d :=
    if rtoHit then
      { d with rtoTotal := d.rtoTotal + 1,
               rtoNotDelivered :=
                 if notDelivered then d.rtoNotDelivered + 1 else d.rtoNotDelivered }
    else d
  if cancelHit then
    { d with cancelTotal := d.cancelTotal + 1,
             cancelCancelled :=
               if cancelled then d.cancelCancelled + 1 else d.cancelCancelled }
  else d

/-- The body of the `allShopifyOrders.forEach` loop: orders without a
truthy attributed product are skipped (`if (!attributedProduct) return`,
where the empty string is falsy too). -/
def rateStep (srMap : String → Option ShiprocketRecord)
    (rtoStart rtoEnd cancelStart cancelEnd : String)
    (pr : List (String × RateCounters)) (o : Order) : List (String × RateCounters) :=
  match truthyAttributed o with
  | none => pr
  | some p =>
      updateAList p
        (bumpCounters (rtoHitOf srMap rtoStart rtoEnd o) (notDeliveredOf srMap o)
          (cancelHitOf cancelStart cancelEnd o) (cancelledOf srMap o))
        zeroCounters pr

/-- The `productRates` object after the whole historical pass. -/
def calcProductRates (orders : List Order) (srMap : String → Option ShiprocketRecord)
    (rtoStart rtoEnd cancelStart cancelEnd : String) : List (String × RateCounters) :=
  orders.foldl (rateStep srMap rtoStart rtoEnd cancelStart cancelEnd) []

/-- The two output percentages per product. -/
structure Rates where
  predictiveRTO : ℚ
  predictiveCancel : ℚ
  deriving DecidableEq

/-- `rates[product] = { predictiveRTO: rtoTotal > 0 ? rtoNotDelivered /
rtoTotal * 100 : 0, ... }`. -/
def ratesOf (d : RateCounters) : Rates :=
  { predictiveRTO :=
      if d.rtoTotal > 0 then (d.rtoNotDelivered : ℚ) / (d.rtoTotal : ℚ) * 100 else 0,
    predictiveCancel :=
      if d.cancelTotal > 0 then (d.cancelCancelled : ℚ) / (d.cancelTotal : ℚ) * 100 else 0 }

/-- `calculatePredictiveRates(allShopifyOrders, shiprocketMap, ...)`. -/
def calculatePredictiveRates (orders : List Order)
    (srMap : String → Option ShiprocketRecord)
    (rtoStart rtoEnd cancelStart cancelEnd : String) : List (String × Rates) :=
  (calcProductRates orders srMap rtoStart rtoEnd cancelStart cancelEnd).map
    fun kv => (kv.1, ratesOf kv.2)

/-! ## SkuAggregator + AdSpendMatcher (§4.4, §4.6): `processOrders` -/

/-- One bucket of the `skuData` object. -/
structure SkuEntry where
  sku : String
  productName : String
  codRevenue : ℚ
  prepaidRevenue : ℚ
  totalRevenue : ℚ
  codOrders : ℕ
  prepaidOrders : ℕ
  codOrderIds : List ℕ
  prepaidOrderIds : List ℕ
  deliveredOrders : ℕ
  rtoOrders : ℕ
  cancelledOrders : ℕ
  inTransitOrders : ℕ
  deriving DecidableEq

/-- The freshly initialized `skuData[sku]` bucket. -/
def initSku (sku productName : String) : SkuEntry :=
  { sku := sku, productName := productName,
    codRevenue := 0, prepaidRevenue := 0, totalRevenue := 0,
    codOrders := 0, prepaidOrders := 0,
    codOrderIds := [], prepaidOrderIds := [],
    deliveredOrders := 0, rtoOrders := 0, cancelledOrders := 0, inTransitOrders := 0 }

/-- `item.sku || item.variant_id || 'unknown'` (JS falsiness: absent or
empty strings fall through). -/
def skuKeyOf (it : LineItem) : String :=
  jsOrStr it.sku (jsOrStr it.variant_id "unknown")

/-- The per-order / per-payment-class dedup-and-outcome block of the line
item loop (lines 458–472 of the source). -/
def outcomePhase (cod : Bool) (oid : ℕ) (status : String) (e : SkuEntry) : SkuEntry :=
  if cod && !(e.codOrderIds.contains oid) then
    let e := { e with codOrderIds := oid :: e.codOrderIds, codOrders := e.codOrders + 1 }
    if status = "delivered" then { e with deliveredOrders := e.deliveredOrders + 1 }
    else if status = "rto" then { e with rtoOrders := e.rtoOrders + 1 }
    else if status = "cancelled" then { e with cancelledOrders := e.cancelledOrders + 1 }
    else if status = "in_transit" then { e with inTransitOrders := e.inTransitOrders + 1 }
    else e
  else if !cod && !(e.prepaidOrderIds.contains oid) then
    let e := { e with prepaidOrderIds := oid :: e.prepaidOrderIds,
                      prepaidOrders := e.prepaidOrders + 1 }
    if status = "delivered" then { e with deliveredOrders := e.deliveredOrders + 1 } else e
  else e

/-- The revenue accumulation of the line item loop (lines 478–484). -/
def revenuePhase (cod : Bool) (skuRev : ℚ) (e : SkuEntry) : SkuEntry :=
  let e :=
    if cod then { e with codRevenue := e.codRevenue + skuRev }
    else { e with prepaidRevenue := e.prepaidRevenue + skuRev }
  { e with totalRevenue := e.totalRevenue + skuRev }

/-- The whole per-line-item mutation of one `skuData` bucket. -/
def itemStep (cod : Bool) (oid : ℕ) (status : String) (skuRev : ℚ)
    (e : SkuEntry) : SkuEntry :=
  revenuePhase cod skuRev (outcomePhase cod oid status e)

/-- `Σ price×quantity` over the order's line items (0 when absent). -/
def itemsSubtotalRaw (o : Order) : ℚ :=
  ((o.line_items.getD []).map itemRevenue).sum

/-- `order.line_items?.reduce(...) || 1`: the subtotal, defaulting to 1 when
the list is absent or the (falsy) subtotal is 0. -/
def itemsTotalOf (o : Order) : ℚ :=
  if itemsSubtotalRaw o = 0 then 1 else itemsSubtotalRaw o

/-- `skuRevenue = orderTotal * (itemSubtotal / itemsTotal)` for one line
item of `o`. -/
def skuRevenueOf (o : Order) (it : LineItem) : ℚ :=
  o.total_price * (itemRevenue it / itemsTotalOf o)

/-- The `order.line_items?.forEach` loop over `skuData`. -/
def skuFoldOrder (cod : Bool) (o : Order) (status : String)
    (sd : List (String × SkuEntry)) : List (String × SkuEntry) :=
  (o.line_items.getD []).foldl
    (fun sd it =>
      updateAList (skuKeyOf it) (itemStep cod o.id status (skuRevenueOf o it))
        (initSku (skuKeyOf it) it.name) sd)
    sd

/-- One bucket of `productAttributionMap`. -/
structure AttrEntry where
  orders : ℕ
  codOrders : ℕ
  deriving DecidableEq

/-- The mutable state of `processOrders` while iterating the batch. -/
structure PState where
  skuData : List (String × SkuEntry)
  productAttributionMap : List (String × AttrEntry)
  codCount : ℕ
  prepaidCount : ℕ
  codRevenueAcc : ℚ
  prepaidRevenueAcc : ℚ
  seenOrders : List ℕ
  manualReviewCount : ℕ

def initPState : PState :=
  { skuData := [], productAttributionMap := [], codCount := 0, prepaidCount := 0,
    codRevenueAcc := 0, prepaidRevenueAcc := 0, seenOrders := [], manualReviewCount := 0 }

/-- `order.name?.replace('#','') || order.order_number` (key into the status
map; an empty replaced name is falsy and falls back). -/
def orderNumberKey (o : Order) : String :=
  match o.name with
  | some n => if removeFirstHash n = "" then o.order_number else removeFirstHash n
  | none => o.order_number

/-- `shiprocketStatuses[orderNumber] || 'unknown'`. -/
def statusOf (ss : String → Option String) (o : Order) : String :=
  jsOrStr (ss (orderNumberKey o)) "unknown"

/-- The body of the `orders.forEach` loop in `processOrders`. -/
def processOrder (ss : String → Option String) (st : PState) (o : Order) : PState :=
  let cod := isCOD o
  let orderTotal := o.total_price
  let status := statusOf ss o
  let st1 :=
    if st.seenOrders.contains o.id then st
    else
      { st with
        seenOrders := o.id :: st.seenOrders,
        codCount := if cod then st.codCount + 1 else st.codCount,
        prepaidCount := if cod then st.prepaidCount else st.prepaidCount + 1,
        codRevenueAcc := if cod then st.codRevenueAcc + orderTotal else st.codRevenueAcc,
        prepaidRevenueAcc :=
          if cod then st.prepaidRevenueAcc else st.prepaidRevenueAcc + orderTotal }
  let st2 :=
    match truthyAttributed o with
    | some p =>
        { st1 with
          productAttributionMap :=
            updateAList p
              (fun a => { orders := a.orders + 1,
                          codOrders := if cod then a.codOrders + 1 else a.codOrders })
              ⟨0, 0⟩ st1.productAttributionMap }
    | none => { st1 with manualReviewCount := st1.manualReviewCount + 1 }
  { st2 with skuData := skuFoldOrder cod o status st2.skuData }

/-- One record of the final `skus` array. -/
structure SkuOut where
  sku : String
  productName : String
  codRevenue : ℚ
  prepaidRevenue : ℚ
  totalRevenue : ℚ
  codOrders : ℕ
  prepaidOrders : ℕ
  totalOrders : ℕ
  adSpend : ℚ
  attributedOrders : ℕ
  cac : ℚ
  deliveredOrders : ℕ
  rtoOrders : ℕ
  cancelledOrders : ℕ
  inTransitOrders : ℕ
  predictiveRTO : ℚ
  predictiveCancel : ℚ
  deriving DecidableEq

/-- The final `Object.values(skuData).map(...)` projection of one bucket:
ad-spend prefix matching, CAC, and predictive-rate lookup. -/
def finalizeSku (adMap : List (String × ℚ)) (attrMap : List (String × AttrEntry))
    (pr : String → Option Rates) (e : SkuEntry) : SkuOut :=
  let productKey := normalizeName e.productName
  let adSpend :=
    adMap.foldl (fun acc kv => if startsWithB productKey kv.1 then acc + kv.2 else acc) 0
  let attributedOrders : ℕ :=
    match lookupA productKey attrMap with
    | some a => a.orders
    | none => 0
  let cac := if attributedOrders > 0 then adSpend / (attributedOrders : ℚ) else 0
  let rates := (pr productKey).getD ⟨0, 0⟩
  { sku := e.sku, productName := e.productName,
    codRevenue := e.codRevenue, prepaidRevenue := e.prepaidRevenue,
    totalRevenue := e.totalRevenue,
    codOrders := e.codOrders, prepaidOrders := e.prepaidOrders,
    totalOrders := e.codOrders + e.prepaidOrders,
    adSpend := adSpend, attributedOrders := attributedOrders, cac := cac,
    deliveredOrders := e.deliveredOrders, rtoOrders := e.rtoOrders,
    cancelledOrders := e.cancelledOrders, inTransitOrders := e.inTransitOrders,
    predictiveRTO := rates.predictiveRTO, predictiveCancel := rates.predictiveCancel }

/-- The result object of `processOrders`. -/
structure Analytics where
  totalOrders : ℕ
  totalCODOrders : ℕ
  totalPrepaidOrders : ℕ
  totalRevenue : ℚ
  manualReviewCount : ℕ
  skus : List SkuOut
  deriving DecidableEq

/-- `processOrders(orders, adSpendByProduct, shiprocketStatuses,
predictiveRates)`. -/
def processOrders (orders : List Order) (adMap : List (String × ℚ))
    (ss : String → Option String) (pr : String → Option Rates) : Analytics :=
  let st := orders.foldl (processOrder ss) initPState
  { totalOrders := orders.length,
    totalCODOrders := st.codCount,
    totalPrepaidOrders := st.prepaidCount,
    totalRevenue := st.codRevenueAcc + st.prepaidRevenueAcc,
    manualReviewCount := st.manualReviewCount,
    skus := st.skuData.map fun kv => finalizeSku adMap st.productAttributionMap pr kv.2 }

/-- The pure aggregation inside `fetchMetaAdSpend`: fold the
`(campaign name, spend)` pairs into spend-by-normalized-product, where the
key is `campaignName.split('|')[0].trim().toLowerCase()`. -/
def normCampaignName (n : String) : String := lowerStr (trimStr (beforeChar '|' n))

def buildAdSpendByProduct (campaigns : List (String × ℚ)) : List (String × ℚ) :=
  campaigns.foldl
    (fun m c => updateAList (normCampaignName c.1) (fun v => v + c.2) 0 m) []


/-! ## Derived definitions used in the theorem statements -/

/-- Per-SKU revenue-split invariant: `codRevenue + prepaidRevenue = totalRevenue`. -/
def revOK (e : SkuEntry) : Prop := e.codRevenue + e.prepaidRevenue = e.totalRevenue

/-- Sum of `totalRevenue` over the `skuData` buckets. -/
def sumSku (sd : List (String × SkuEntry)) : ℚ :=
  (sd.map (fun kv => kv.2.totalRevenue)).sum

/-- All four shipment-outcome counters of a bucket are zero. -/
def outcomesZero (e : SkuEntry) : Prop :=
  e.deliveredOrders = 0 ∧ e.rtoOrders = 0 ∧ e.cancelledOrders = 0
    ∧ e.inTransitOrders = 0

/-- The three COD-only outcome counters of a bucket are zero. -/
def codOutcomesZero (e : SkuEntry) : Prop :=
  e.rtoOrders = 0 ∧ e.cancelledOrders = 0 ∧ e.inTransitOrders = 0

/-- The sublist of first occurrences of each order id, given the set of ids
already seen (specification-side description of the batch dedup). -/
def firstOccurAux (seen : List ℕ) : List Order → List Order
  | [] => []
  | o :: rest =>
      if seen.contains o.id then firstOccurAux seen rest
      else o :: firstOccurAux (o.id :: seen) rest

/-- First occurrence of every distinct order id in a batch, in batch order. -/
def firstOccurrences (orders : List Order) : List Order := firstOccurAux [] orders

/-- The counters recorded for product `p` (all zero when `p` has no entry). -/
def countersFor (p : String) (l : List (String × RateCounters)) : RateCounters :=
  (lookupA p l).getD zeroCounters

/-- The UTM extraction step produced nothing usable: either it returned
nothing or it returned the (JS-falsy) empty string. -/
def utmMiss (o : Order) : Prop :=
  extractProductFromUTM o.landing_site = none
    ∨ extractProductFromUTM o.landing_site = some ""

/-! ## Concrete inputs for witnesses and counterexamples -/

def mkItem (nm : String) (sk : Option String) (p : ℚ) (q : ℕ) : LineItem :=
  { name := nm, sku := sk, variant_id := none, price := p, quantity := q }

def noStatuses : String → Option String := fun _ => none

def noRates : String → Option Rates := fun _ => none

def noShiprocket : String → Option ShiprocketRecord := fun _ => none

def defaultSkuOut : SkuOut := finalizeSku [] [] noRates (initSku "" "")

def baseOrder : Order :=
  { id := 0, name := some "#0", order_number := "0", createdAtIST := "2024-02-01",
    payment_gateway_names := none, total_price := 0,
    landing_site := LandingSite.absent, line_items := none }

/-- A zero-priced line item on an order with a nonzero total. -/
def cxOrderC1 : Order :=
  { baseOrder with
      id := 1, total_price := 100,
      line_items := some [mkItem "Freebie" (some "F1") 0 1] }

def wOrderC1 : Order :=
  { baseOrder with
      id := 2, total_price := 500,
      payment_gateway_names := some ["COD"],
      line_items := some [mkItem "Widget" (some "W1") 300 1,
                          mkItem "Gadget" (some "G1") 200 1] }

def wSkuC1 : SkuOut :=
  ((processOrders [wOrderC1] [] noStatuses noRates).skus).headD defaultSkuOut

/-- A landing page whose `utm_campaign` starts with `'_'`, so the extracted
prefix is empty, next to a single line item. -/
def cxOrderC2 : Order :=
  { baseOrder with
      id := 3, total_price := 100,
      landing_site := LandingSite.parsed (some "_pro"),
      line_items := some [mkItem "Widget" (some "W1") 100 1] }

def wOrderC2u : Order :=
  { baseOrder with
      id := 4,
      landing_site := LandingSite.parsed (some "Premium_summer"),
      line_items := some [mkItem "Widget" (some "W1") 100 1] }

def wOrderC2s : Order :=
  { baseOrder with
      id := 5,
      line_items := some [mkItem "Widget™ Deluxe" (some "W1") 100 1] }

def wOrderC2m : Order :=
  { baseOrder with
      id := 6, total_price := 100,
      line_items := some [mkItem "Alpha" (some "A") 80 1,
                          mkItem "Beta" (some "B") 20 1] }

def wShipDelivered : ShiprocketRecord :=
  { status := some 7, mainStatus := "new", pickupTimestamp := some "2024-01-05 10:00:00" }

def wShipPending : ShiprocketRecord :=
  { status := some 4, mainStatus := "new", pickupTimestamp := some "2024-01-05 10:00:00" }

def mkWidgetOrder (i : ℕ) (nm : String) : Order :=
  { baseOrder with
      id := i, name := some nm,
      payment_gateway_names := some ["COD"], createdAtIST := "2023-12-01",
      total_price := 100,
      line_items := some [mkItem "Widget" (some "W1") 100 1] }

/-- Ten historical COD "widget" orders picked up inside the RTO window. -/
def wOrdersC3 : List Order :=
  [mkWidgetOrder 101 "#101", mkWidgetOrder 102 "#102", mkWidgetOrder 103 "#103",
   mkWidgetOrder 104 "#104", mkWidgetOrder 105 "#105", mkWidgetOrder 106 "#106",
   mkWidgetOrder 107 "#107", mkWidgetOrder 108 "#108", mkWidgetOrder 109 "#109",
   mkWidgetOrder 110 "#110"]

/-- Shipment records for `wOrdersC3`: three still pending, seven delivered. -/
def wSrC3 : String → Option ShiprocketRecord := fun n =>
  if n = "101" || n = "102" || n = "103" then some wShipPending
  else if n = "104" || n = "105" || n = "106" || n = "107" || n = "108" || n = "109"
      || n = "110" then some wShipDelivered
  else none

/-- A COD order whose lone line item is named `"™"`: its normalized name is
the empty string, so `getAttributedProduct` returns the JS-falsy `""` and
`calculatePredictiveRates` skips the order entirely. -/
def cxOrderTM : Order :=
  { baseOrder with
      id := 11, name := some "#9001", total_price := 100,
      payment_gateway_names := some ["COD"],
      line_items := some [mkItem "™" (some "T1") 100 1] }

def wOrderC7 : Order :=
  { baseOrder with
      id := 7, total_price := 100,
      line_items := some [mkItem "Alpha Pro" (some "AP") 100 1] }

def wCampaignsC7 : List (String × ℚ) := [("Alpha | IN", 50), ("alp", 10), ("beta", 5)]

def wSkuC7 : SkuOut :=
  ((processOrders [wOrderC7] (buildAdSpendByProduct wCampaignsC7)
      noStatuses noRates).skus).headD defaultSkuOut

def wOrderC8 : Order :=
  { baseOrder with
      id := 8,
      line_items := some [mkItem "Widget" (some "W1") 100 1] }

def wOrderC9 : Order :=
  { baseOrder with
      id := 9, total_price := 250,
      payment_gateway_names := some ["COD"],
      line_items := some [mkItem "Widget" (some "W1") 250 1] }

def wSkuC9 : SkuOut :=
  ((processOrders [wOrderC9] [] noStatuses noRates).skus).headD defaultSkuOut

/-- A status feed that marks every order as returned to origin. -/
def allRtoStatuses : String → Option String := fun _ => some "rto"

/-- A prepaid order whose shipment status is `'rto'`. -/
def wOrderC10 : Order :=
  { baseOrder with
      id := 10, total_price := 250,
      payment_gateway_names := some ["razorpay"],
      line_items := some [mkItem "Widget" (some "W1") 250 1] }

def wSkuC10 : SkuOut :=
  ((processOrders [wOrderC10] [] allRtoStatuses noRates).skus).headD defaultSkuOut

/-! ## Lemmas about the association-list model -/

theorem lookupA_updateAList_self {V : Type} (k : String) (f : V → V) (d : V) :
    ∀ l : List (String × V),
      lookupA k (updateAList k f d l) = some (f ((lookupA k l).getD d))
  | [] => by simp [updateAList, lookupA]
  | (k1, v) :: rest => by
      by_cases h : k1 = k
      · subst h; simp [updateAList, lookupA]
      · simp [updateAList, lookupA, h, lookupA_updateAList_self k f d rest]

theorem lookupA_updateAList_ne {V : Type} {k p : String} (h : k ≠ p) (f : V → V) (d : V) :
    ∀ l : List (String × V), lookupA p (updateAList k f d l) = lookupA p l
  | [] => by simp [updateAList, lookupA, h]
  | (k1, v) :: rest => by
      by_cases h1 : k1 = k
      · subst h1
        simp [updateAList, lookupA, h]
      · by_cases h2 : k1 = p
        · subst h2
          rw [show updateAList k f d ((k1, v) :: rest)
                = (k1, v) :: updateAList k f d rest by simp [updateAList, h1]]
          simp [lookupA]
        · simp [updateAList, lookupA, h1, h2, lookupA_updateAList_ne h f d rest]

theorem forall_updateAList {V : Type} {P : V → Prop} {k : String} {f : V → V} {d : V}
    (hf : ∀ v, P v → P (f v)) (hd : P (f d)) :
    ∀ {l : List (String × V)}, (∀ kv ∈ l, P kv.2) →
      ∀ kv ∈ updateAList k f d l, P kv.2
  | [], _, kv, hkv => by
      simp only [updateAList, List.mem_singleton] at hkv
      simpa [hkv] using hd
  | (k1, v) :: rest, hl, kv, hkv => by
      by_cases h : k1 = k
      · simp only [updateAList, if_pos h] at hkv
        rcases List.mem_cons.1 hkv with h1 | h1
        · have := hf v (hl (k1, v) (List.mem_cons_self _ _))
          simpa [h1] using this
        · exact hl kv (List.mem_cons_of_mem _ h1)
      · simp only [updateAList, if_neg h] at hkv
        rcases List.mem_cons.1 hkv with h1 | h1
        · exact hl kv (by simp [h1])
        · exact forall_updateAList hf hd
            (fun kv h => hl kv (List.mem_cons_of_mem _ h)) kv h1

theorem updateAList_ne_nil {V : Type} (k : String) (f : V → V) (d : V)
    (l : List (String × V)) : updateAList k f d l ≠ [] := by
  cases l with
  | nil => simp [updateAList]
  | cons kv rest =>
      obtain ⟨k1, v⟩ := kv
      by_cases h : k1 = k <;> simp [updateAList, h]

theorem mem_keys_updateAList {V : Type} {q k : String} {f : V → V} {d : V} :
    ∀ {l : List (String × V)}, q ∈ (updateAList k f d l).map Prod.fst →
      q ∈ l.map Prod.fst ∨ q = k
  | [], h => by
      simp only [updateAList, List.map_cons, List.map_nil, List.mem_singleton] at h
      exact Or.inr h
  | (k1, v) :: rest, h => by
      by_cases h' : k1 = k
      · simp only [updateAList, if_pos h', List.map_cons, List.mem_cons] at h
        rcases h with h | h
        · exact Or.inl (List.mem_cons.2 (Or.inl h))
        · exact Or.inl (List.mem_cons.2 (Or.inr h))
      · simp only [updateAList, if_neg h', List.map_cons, List.mem_cons] at h
        rcases h with h | h
        · exact Or.inl (List.mem_cons.2 (Or.inl h))
        · rcases mem_keys_updateAList h with h2 | h2
          · exact Or.inl (List.mem_cons.2 (Or.inr h2))
          · exact Or.inr h2

theorem keys_nodup_updateAList {V : Type} {k : String} {f : V → V} {d : V} :
    ∀ {l : List (String × V)}, (l.map Prod.fst).Nodup →
      ((updateAList k f d l).map Prod.fst).Nodup
  | [], _ => by simp [updateAList]
  | (k1, v) :: rest, h => by
      simp only [List.map_cons, List.nodup_cons] at h
      by_cases h' : k1 = k
      · simpa [updateAList, h', List.nodup_cons] using h
      · simp only [updateAList, if_neg h', List.map_cons, List.nodup_cons]
        refine ⟨?_, keys_nodup_updateAList h.2⟩
        intro hmem
        rcases mem_keys_updateAList hmem with hm | hm
        · exact h.1 hm
        · exact h' hm

/-! ## Sum lemmas -/

theorem sum_map_div (l : List ℚ) (T : ℚ) :
    (l.map (fun x => x / T)).sum = l.sum / T := by
  induction l with
  | nil => simp
  | cons x xs ih => simp [ih, add_div]

theorem sum_map_mul_left {α : Type} (t : ℚ) (g : α → ℚ) (l : List α) :
    (l.map (fun x => t * g x)).sum = t * (l.map g).sum := by
  induction l with
  | nil => simp
  | cons x xs ih => simp [ih, mul_add]

theorem sumBy_updateAList {V : Type} (g : V → ℚ) (k : String) (f : V → V) (d : V)
    (δ : ℚ) (hf : ∀ v, g (f v) = g v + δ) (hd : g d = 0) :
    ∀ l : List (String × V),
      ((updateAList k f d l).map (fun kv => g kv.2)).sum
        = (l.map (fun kv => g kv.2)).sum + δ
  | [] => by simp [updateAList, hf, hd]
  | (k1, v) :: rest => by
      by_cases h : k1 = k
      · simp only [updateAList, if_pos h, List.map_cons, List.sum_cons, hf]
        ring
      · simp only [updateAList, if_neg h, List.map_cons, List.sum_cons,
          sumBy_updateAList g k f d δ hf hd rest]
        ring

theorem value_le_sumVals {l : List (String × ℚ)} (h : ∀ kv ∈ l, 0 ≤ kv.2)
    {kv : String × ℚ} (hm : kv ∈ l) : kv.2 ≤ totalBucketRevenue l := by
  induction l with
  | nil => cases hm
  | cons x xs ih =>
      rcases List.mem_cons.1 hm with h1 | h1
      · have hxs : 0 ≤ (xs.map (fun kv => kv.2)).sum :=
          List.sum_nonneg (by
            intro q hq
            rcases List.mem_map.1 hq with ⟨kv', hkv', rfl⟩
            exact h kv' (List.mem_cons_of_mem _ hkv'))
        simp only [totalBucketRevenue, List.map_cons, List.sum_cons, h1]
        linarith
      · have hx : 0 ≤ x.2 := h x (List.mem_cons_self _ _)
        have := ih (fun kv h' => h kv (List.mem_cons_of_mem _ h')) h1
        simp only [totalBucketRevenue, List.map_cons, List.sum_cons]
        simp only [totalBucketRevenue] at this
        linarith

theorem two_values_le_sumVals {l : List (String × ℚ)} (h : ∀ kv ∈ l, 0 ≤ kv.2)
    {a b : String × ℚ} (ha : a ∈ l) (hb : b ∈ l) (hne : a ≠ b) :
    a.2 + b.2 ≤ totalBucketRevenue l := by
  induction l with
  | nil => cases ha
  | cons x xs ih =>
      have hrest : ∀ kv ∈ xs, 0 ≤ kv.2 := fun kv h' => h kv (List.mem_cons_of_mem _ h')
      rcases List.mem_cons.1 ha with h1 | h1
      · have hbxs : b ∈ xs := by
          rcases List.mem_cons.1 hb with h2 | h2
          · exact absurd (h1.trans h2.symm) hne
          · exact h2
        have := value_le_sumVals hrest hbxs
        simp only [totalBucketRevenue, List.map_cons, List.sum_cons, h1]
        simp only [totalBucketRevenue] at this
        linarith
      · rcases List.mem_cons.1 hb with h2 | h2
        · have := value_le_sumVals hrest h1
          simp only [totalBucketRevenue, List.map_cons, List.sum_cons, h2]
          simp only [totalBucketRevenue] at this
          linarith
        · have hx : 0 ≤ x.2 := h x (List.mem_cons_self _ _)
          have := ih hrest h1 h2
          simp only [totalBucketRevenue, List.map_cons, List.sum_cons]
          simp only [totalBucketRevenue] at this
          linarith

theorem nodup_keys_mem_unique {V : Type} {l : List (String × V)}
    (h : (l.map Prod.fst).Nodup) {k : String} {a b : V}
    (ha : (k, a) ∈ l) (hb : (k, b) ∈ l) : a = b := by
  induction l with
  | nil => cases ha
  | cons x xs ih =>
      simp only [List.map_cons, List.nodup_cons] at h
      rcases List.mem_cons.1 ha with h1 | h1 <;> rcases List.mem_cons.1 hb with h2 | h2
      · rw [← h1] at h2; exact (Prod.mk.injEq _ _ _ _ ▸ h2.symm).2
      · exfalso; exact h.1 (List.mem_map.2 ⟨(k, b), h2, by rw [← h1]⟩)
      · exfalso; exact h.1 (List.mem_map.2 ⟨(k, a), h1, by rw [← h2]⟩)
      · exact ih h.2 h1 h2

/-! ## Projection lemmas for the `processOrders` state machine -/

theorem outcomePhase_codRevenue (c : Bool) (oid : ℕ) (st : String) (e : SkuEntry) :
    (outcomePhase c oid st e).codRevenue = e.codRevenue := by
  unfold outcomePhase
  repeat' split
  all_goals rfl

theorem outcomePhase_prepaidRevenue (c : Bool) (oid : ℕ) (st : String) (e : SkuEntry) :
    (outcomePhase c oid st e).prepaidRevenue = e.prepaidRevenue := by
  unfold outcomePhase
  repeat' split
  all_goals rfl

theorem outcomePhase_totalRevenue (c : Bool) (oid : ℕ) (st : String) (e : SkuEntry) :
    (outcomePhase c oid st e).totalRevenue = e.totalRevenue := by
  unfold outcomePhase
  repeat' split
  all_goals rfl

theorem revenuePhase_totalRevenue (c : Bool) (r : ℚ) (e : SkuEntry) :
    (revenuePhase c r e).totalRevenue = e.totalRevenue + r := by
  unfold revenuePhase
  split <;> rfl

theorem itemStep_totalRevenue (c : Bool) (oid : ℕ) (st : String) (r : ℚ) (e : SkuEntry) :
    (itemStep c oid st r e).totalRevenue = e.totalRevenue + r := by
  unfold itemStep
  rw [revenuePhase_totalRevenue, outcomePhase_totalRevenue]

theorem itemStep_revOK (c : Bool) (oid : ℕ) (st : String) (r : ℚ) (e : SkuEntry)
    (h : e.codRevenue + e.prepaidRevenue = e.totalRevenue) :
    (itemStep c oid st r e).codRevenue + (itemStep c oid st r e).prepaidRevenue
      = (itemStep c oid st r e).totalRevenue := by
  unfold itemStep revenuePhase
  cases c <;>
    simp [outcomePhase_codRevenue, outcomePhase_prepaidRevenue,
      outcomePhase_totalRevenue, ← h] <;> ring

theorem processOrder_skuData (ss : String → Option String) (st : PState) (o : Order) :
    (processOrder ss st o).skuData
      = skuFoldOrder (isCOD o) o (statusOf ss o) st.skuData := by
  unfold processOrder
  cases hg : truthyAttributed o <;> split <;> rfl

theorem processOrder_productAttributionMap (ss : String → Option String) (st : PState)
    (o : Order) :
    (processOrder ss st o).productAttributionMap
      = match truthyAttributed o with
        | some p =>
            updateAList p
              (fun a => { orders := a.orders + 1,
                          codOrders := if isCOD o then a.codOrders + 1 else a.codOrders })
              ⟨0, 0⟩ st.productAttributionMap
        | none => st.productAttributionMap := by
  unfold processOrder
  cases hg : truthyAttributed o <;> split <;> rfl

theorem processOrder_codCount (ss : String → Option String) (st : PState) (o : Order) :
    (processOrder ss st o).codCount
      = if st.seenOrders.contains o.id then st.codCount
        else if isCOD o then st.codCount + 1 else st.codCount := by
  unfold processOrder
  cases hg : truthyAttributed o <;> split <;> split <;> rfl

theorem processOrder_prepaidCount (ss : String → Option String) (st : PState) (o : Order) :
    (processOrder ss st o).prepaidCount
      = if st.seenOrders.contains o.id then st.prepaidCount
        else if isCOD o then st.prepaidCount else st.prepaidCount + 1 := by
  unfold processOrder
  cases hg : truthyAttributed o <;> split <;> split <;> rfl

theorem processOrder_codRevenueAcc (ss : String → Option String) (st : PState) (o : Order) :
    (processOrder ss st o).codRevenueAcc
      = if st.seenOrders.contains o.id then st.codRevenueAcc
        else if isCOD o then st.codRevenueAcc + o.total_price else st.codRevenueAcc := by
  unfold processOrder
  cases hg : truthyAttributed o <;> split <;> split <;> rfl

theorem processOrder_prepaidRevenueAcc (ss : String → Option String) (st : PState)
    (o : Order) :
    (processOrder ss st o).prepaidRevenueAcc
      = if st.seenOrders.contains o.id then st.prepaidRevenueAcc
        else if isCOD o then st.prepaidRevenueAcc
        else st.prepaidRevenueAcc + o.total_price := by
  unfold processOrder
  cases hg : truthyAttributed o <;> split <;> split <;> rfl

theorem processOrder_seenOrders (ss : String → Option String) (st : PState) (o : Order) :
    (processOrder ss st o).seenOrders
      = if st.seenOrders.contains o.id then st.seenOrders else o.id :: st.seenOrders := by
  unfold processOrder
  cases hg : truthyAttributed o <;> split <;> rfl

/-! ## Revenue allocation (claim C1) -/

theorem sum_skuRevenueOf (o : Order) (h : itemsSubtotalRaw o ≠ 0) :
    ((o.line_items.getD []).map (skuRevenueOf o)).sum = o.total_price := by
  have hT : itemsTotalOf o = itemsSubtotalRaw o := by simp [itemsTotalOf, h]
  have h1 : ((o.line_items.getD []).map (skuRevenueOf o)).sum
      = o.total_price
        * (((o.line_items.getD []).map (fun it => itemRevenue it / itemsTotalOf o)).sum) :=
    sum_map_mul_left o.total_price (fun it => itemRevenue it / itemsTotalOf o) _
  have h2 : ((o.line_items.getD []).map (fun it => itemRevenue it / itemsTotalOf o)).sum
      = (((o.line_items.getD []).map itemRevenue).map (fun x => x / itemsTotalOf o)).sum := by
    rw [List.map_map]; rfl
  rw [h1, h2, sum_map_div]
  show o.total_price * (itemsSubtotalRaw o / itemsTotalOf o) = o.total_price
  rw [hT, div_self h, mul_one]

theorem revOK_initSku (sku nm : String) : revOK (initSku sku nm) := by
  simp [revOK, initSku]

theorem foldItems_revOK (c : Bool) (oid : ℕ) (status : String) (rev : LineItem → ℚ) :
    ∀ (items : List LineItem) (sd : List (String × SkuEntry)),
      (∀ kv ∈ sd, revOK kv.2) →
      ∀ kv ∈ items.foldl
          (fun sd it =>
            updateAList (skuKeyOf it) (itemStep c oid status (rev it))
              (initSku (skuKeyOf it) it.name) sd) sd,
        revOK kv.2
  | [], _, h => h
  | it :: rest, sd, h => by
      refine foldItems_revOK c oid status rev rest _ ?_
      exact forall_updateAList
        (fun v hv => itemStep_revOK c oid status (rev it) v hv)
        (itemStep_revOK c oid status (rev it) _ (revOK_initSku _ _)) h

theorem processFold_revOK (ss : String → Option String) :
    ∀ (orders : List Order) (st : PState),
      (∀ kv ∈ st.skuData, revOK kv.2) →
      ∀ kv ∈ (orders.foldl (processOrder ss) st).skuData, revOK kv.2
  | [], _, h => h
  | o :: rest, st, h => by
      refine processFold_revOK ss rest _ ?_
      rw [processOrder_skuData]
      exact foldItems_revOK (isCOD o) o.id (statusOf ss o) (skuRevenueOf o)
        (o.line_items.getD []) st.skuData h

theorem foldItems_sumSku (c : Bool) (oid : ℕ) (status : String) (rev : LineItem → ℚ) :
    ∀ (items : List LineItem) (sd : List (String × SkuEntry)),
      sumSku (items.foldl
          (fun sd it =>
            updateAList (skuKeyOf it) (itemStep c oid status (rev it))
              (initSku (skuKeyOf it) it.name) sd) sd)
        = sumSku sd + (items.map rev).sum
  | [], sd => by simp [sumSku]
  | it :: rest, sd => by
      rw [List.foldl_cons, foldItems_sumSku c oid status rev rest, List.map_cons,
        List.sum_cons]
      have h2 := sumBy_updateAList (fun e => e.totalRevenue) (skuKeyOf it)
        (itemStep c oid status (rev it)) (initSku (skuKeyOf it) it.name) (rev it)
        (fun v => itemStep_totalRevenue c oid status (rev it) v) (by simp [initSku]) sd
      simp only [sumSku]
      rw [h2]; ring

theorem skuFoldOrder_sumSku (c : Bool) (o : Order) (status : String)
    (sd : List (String × SkuEntry)) (h : itemsSubtotalRaw o ≠ 0) :
    sumSku (skuFoldOrder c o status sd) = sumSku sd + o.total_price := by
  unfold skuFoldOrder
  rw [foldItems_sumSku, sum_skuRevenueOf o h]

theorem processFold_sumSku (ss : String → Option String) :
    ∀ (orders : List Order) (st : PState),
      (∀ o ∈ orders, itemsSubtotalRaw o ≠ 0) →
      sumSku ((orders.foldl (processOrder ss) st).skuData)
        = sumSku st.skuData + (orders.map (fun o => o.total_price)).sum
  | [], _, _ => by simp
  | o :: rest, st, h => by
      rw [List.foldl_cons,
        processFold_sumSku ss rest _ (fun o' h' => h o' (List.mem_cons_of_mem _ h')),
        processOrder_skuData,
        skuFoldOrder_sumSku _ _ _ _ (h o (List.mem_cons_self _ _)),
        List.map_cons, List.sum_cons]
      ring

/-- C1 (amended): for every order whose line-items subtotal is nonzero, the
per-line-item allocations `orderTotal × (price × quantity) / itemsTotal` sum
exactly to the order's total price (and so, over a batch of such orders, the
SKU `totalRevenue` fields sum to the batch's total order value); and for
every SKU record in the output of `processOrders`, `codRevenue +
prepaidRevenue = totalRevenue` holds exactly (which is stronger than the
claimed 1e-6 relative tolerance).  The original claim is falsified by orders
with a zero items subtotal, see `C1_counterexample_zero_subtotal`. -/
theorem C1_proportional_allocation
    (o : Order) (ho : itemsSubtotalRaw o ≠ 0)
    (orders : List Order) (adMap : List (String × ℚ)) (ss : String → Option String)
    (pr : String → Option Rates)
    (horders : ∀ o' ∈ orders, itemsSubtotalRaw o' ≠ 0)
    (s : SkuOut) (hs : s ∈ (processOrders orders adMap ss pr).skus) :
    ((o.line_items.getD []).map (skuRevenueOf o)).sum = o.total_price
    ∧ ((processOrders orders adMap ss pr).skus.map (fun s => s.totalRevenue)).sum
        = (orders.map (fun o => o.total_price)).sum
    ∧ s.codRevenue + s.prepaidRevenue = s.totalRevenue := by
  have hskus : (processOrders orders adMap ss pr).skus
      = ((orders.foldl (processOrder ss) initPState).skuData).map
          (fun kv => finalizeSku adMap
            (orders.foldl (processOrder ss) initPState).productAttributionMap pr kv.2) :=
    rfl
  refine ⟨sum_skuRevenueOf o ho, ?_, ?_⟩
  · rw [hskus, List.map_map]
    have hpoint : ∀ kv : String × SkuEntry,
        ((fun s : SkuOut => s.totalRevenue) ∘
          (fun kv : String × SkuEntry => finalizeSku adMap
            (orders.foldl (processOrder ss) initPState).productAttributionMap pr kv.2)) kv
          = kv.2.totalRevenue := fun _ => rfl
    rw [funext hpoint]
    have := processFold_sumSku ss orders initPState horders
    simpa [sumSku, initPState] using this
  · rw [hskus] at hs
    obtain ⟨kv, hkv, hfin⟩ := List.mem_map.1 hs
    have hrev := processFold_revOK ss orders initPState
      (by intro kv h; simp [initPState] at h) kv hkv
    rw [← hfin]
    exact hrev

/-- C1 counterexample: an order with total price 100 whose only line item is
priced 0 — the items subtotal is 0, the `|| 1` default kicks in, every
allocation is 0, and the allocated revenue sums to 0, not to the order's
total (far outside any floating-point tolerance). -/
theorem C1_counterexample_zero_subtotal :
    cxOrderC1.total_price = 100
    ∧ ((processOrders [cxOrderC1] [] noStatuses noRates).skus.map
        (fun s => s.totalRevenue)).sum = 0
    ∧ ((cxOrderC1.line_items.getD []).map (skuRevenueOf cxOrderC1)).sum
        ≠ cxOrderC1.total_price := by
  refine ⟨rfl, by with_unfolding_all rfl, ?_⟩
  have h0 : ((cxOrderC1.line_items.getD []).map (skuRevenueOf cxOrderC1)).sum = 0 := by
    with_unfolding_all rfl
  have h1 : cxOrderC1.total_price = 100 := rfl
  rw [h0, h1]
  norm_num

/-- Witness for `C1_proportional_allocation`: a ₹500 COD order with line
items ₹300×1 and ₹200×1 under distinct SKUs (the end-to-end scenario of
§8 of the spec). -/
theorem C1_witness_allocation :
    (itemsSubtotalRaw wOrderC1 ≠ 0
      ∧ (∀ o' ∈ [wOrderC1], itemsSubtotalRaw o' ≠ 0)
      ∧ wSkuC1 ∈ (processOrders [wOrderC1] [] noStatuses noRates).skus)
    ∧ (((wOrderC1.line_items.getD []).map (skuRevenueOf wOrderC1)).sum
          = wOrderC1.total_price
        ∧ ((processOrders [wOrderC1] [] noStatuses noRates).skus.map
            (fun s => s.totalRevenue)).sum
            = ([wOrderC1].map (fun o => o.total_price)).sum
        ∧ wSkuC1.codRevenue + wSkuC1.prepaidRevenue = wSkuC1.totalRevenue) := by
  have h1 : itemsSubtotalRaw wOrderC1 ≠ 0 := by
    have h : itemsSubtotalRaw wOrderC1 = 500 := by with_unfolding_all rfl
    rw [h]; norm_num
  have h2 : ∀ o' ∈ [wOrderC1], itemsSubtotalRaw o' ≠ 0 := by
    intro o' ho'
    rw [List.mem_singleton] at ho'
    rw [ho']; exact h1
  have h3 : wSkuC1 ∈ (processOrders [wOrderC1] [] noStatuses noRates).skus :=
    of_decide_eq_true (by with_unfolding_all rfl)
  exact ⟨⟨h1, h2, h3⟩,
    C1_proportional_allocation wOrderC1 h1 [wOrderC1] [] noStatuses noRates h2 wSkuC1 h3⟩

/-! ## Batch-level dedup (claim C4) -/

theorem length_filter_add_length_filter_not {α : Type} (p : α → Bool) (l : List α) :
    (l.filter p).length + (l.filter (fun a => !p a)).length = l.length := by
  induction l with
  | nil => simp
  | cons x xs ih =>
      cases hx : p x <;> simp [List.filter_cons, hx] <;> omega

theorem processFold_counts (ss : String → Option String) :
    ∀ (orders : List Order) (st : PState),
      (orders.foldl (processOrder ss) st).codCount
          = st.codCount
            + ((firstOccurAux st.seenOrders orders).filter (fun o => isCOD o)).length
      ∧ (orders.foldl (processOrder ss) st).prepaidCount
          = st.prepaidCount
            + ((firstOccurAux st.seenOrders orders).filter (fun o => !isCOD o)).length
      ∧ (orders.foldl (processOrder ss) st).codRevenueAcc
            + (orders.foldl (processOrder ss) st).prepaidRevenueAcc
          = st.codRevenueAcc + st.prepaidRevenueAcc
            + ((firstOccurAux st.seenOrders orders).map (fun o => o.total_price)).sum
  | [], st => by simp [firstOccurAux]
  | o :: rest, st => by
      obtain ⟨ih1, ih2, ih3⟩ := processFold_counts ss rest (processOrder ss st o)
      rw [List.foldl_cons]
      by_cases hmem : st.seenOrders.contains o.id
      · have hseen : (processOrder ss st o).seenOrders = st.seenOrders := by
          rw [processOrder_seenOrders, if_pos hmem]
        have hcod : (processOrder ss st o).codCount = st.codCount := by
          rw [processOrder_codCount, if_pos hmem]
        have hpre : (processOrder ss st o).prepaidCount = st.prepaidCount := by
          rw [processOrder_prepaidCount, if_pos hmem]
        have hcr : (processOrder ss st o).codRevenueAcc = st.codRevenueAcc := by
          rw [processOrder_codRevenueAcc, if_pos hmem]
        have hpr : (processOrder ss st o).prepaidRevenueAcc = st.prepaidRevenueAcc := by
          rw [processOrder_prepaidRevenueAcc, if_pos hmem]
        simp only [hseen, hcod, hpre, hcr, hpr] at ih1 ih2 ih3
        rw [show firstOccurAux st.seenOrders (o :: rest)
              = firstOccurAux st.seenOrders rest by
            unfold firstOccurAux; rw [if_pos hmem]; cases rest <;> rfl]
        exact ⟨ih1, ih2, ih3⟩
      · have hseen : (processOrder ss st o).seenOrders = o.id :: st.seenOrders := by
          rw [processOrder_seenOrders, if_neg hmem]
        have hcod : (processOrder ss st o).codCount
            = if isCOD o then st.codCount + 1 else st.codCount := by
          rw [processOrder_codCount, if_neg hmem]
        have hpre : (processOrder ss st o).prepaidCount
            = if isCOD o then st.prepaidCount else st.prepaidCount + 1 := by
          rw [processOrder_prepaidCount, if_neg hmem]
        have hcr : (processOrder ss st o).codRevenueAcc
            = if isCOD o then st.codRevenueAcc + o.total_price else st.codRevenueAcc := by
          rw [processOrder_codRevenueAcc, if_neg hmem]
        have hpr : (processOrder ss st o).prepaidRevenueAcc
            = if isCOD o then st.prepaidRevenueAcc
              else st.prepaidRevenueAcc + o.total_price := by
          rw [processOrder_prepaidRevenueAcc, if_neg hmem]
        simp only [hseen, hcod, hpre, hcr, hpr] at ih1 ih2 ih3
        rw [show firstOccurAux st.seenOrders (o :: rest)
              = o :: firstOccurAux (o.id :: st.seenOrders) rest by
            unfold firstOccurAux; rw [if_neg hmem]; cases rest <;> rfl]
        refine ⟨?_, ?_, ?_⟩
        · rw [ih1]
          cases hc : isCOD o <;> simp [List.filter_cons, hc] <;> omega
        · rw [ih2]
          cases hc : isCOD o <;> simp [List.filter_cons, hc] <;> omega
        · rw [ih3]
          cases hc : isCOD o <;> simp [List.map_cons, List.sum_cons, hc] <;> ring

/-- C4: in `processOrders`, every distinct order id contributes to exactly
one of the COD / prepaid counters, exactly once: the output counters equal
the counts of (first occurrences of) distinct orders of each payment class,
their sum is the number of distinct order ids in the batch, and the total
revenue is the sum of each distinct order's total price taken once —
independent of how many line items an order has and of how often the same
id repeats in the batch. -/
theorem C4_batch_dedup (orders : List Order) (adMap : List (String × ℚ))
    (ss : String → Option String) (pr : String → Option Rates) :
    (processOrders orders adMap ss pr).totalCODOrders
        = ((firstOccurrences orders).filter (fun o => isCOD o)).length
    ∧ (processOrders orders adMap ss pr).totalPrepaidOrders
        = ((firstOccurrences orders).filter (fun o => !isCOD o)).length
    ∧ (processOrders orders adMap ss pr).totalCODOrders
        + (processOrders orders adMap ss pr).totalPrepaidOrders
        = (firstOccurrences orders).length
    ∧ (processOrders orders adMap ss pr).totalRevenue
        = ((firstOccurrences orders).map (fun o => o.total_price)).sum := by
  obtain ⟨h1, h2, h3⟩ := processFold_counts ss orders initPState
  have e1 : (processOrders orders adMap ss pr).totalCODOrders
      = (orders.foldl (processOrder ss) initPState).codCount := rfl
  have e2 : (processOrders orders adMap ss pr).totalPrepaidOrders
      = (orders.foldl (processOrder ss) initPState).prepaidCount := rfl
  have e3 : (processOrders orders adMap ss pr).totalRevenue
      = (orders.foldl (processOrder ss) initPState).codRevenueAcc
        + (orders.foldl (processOrder ss) initPState).prepaidRevenueAcc := rfl
  simp only [show initPState.seenOrders = [] from rfl,
    show initPState.codCount = 0 from rfl, show initPState.prepaidCount = 0 from rfl,
    show initPState.codRevenueAcc = 0 from rfl,
    show initPState.prepaidRevenueAcc = 0 from rfl, Nat.zero_add, zero_add] at h1 h2 h3
  rw [e1, e2, e3, h1, h2, h3]
  refine ⟨rfl, rfl, ?_, rfl⟩
  simp only [firstOccurrences]
  exact length_filter_add_length_filter_not (fun o => isCOD o) _

/-! ## Predictive cohort membership (claims C5, C6) -/

theorem bumpCounters_rtoTotal (rh nd ch cc : Bool) (d : RateCounters) :
    (bumpCounters rh nd ch cc d).rtoTotal = d.rtoTotal + (if rh then 1 else 0) := by
  unfold bumpCounters
  repeat' split
  all_goals simp

theorem bumpCounters_rtoNotDelivered (rh nd ch cc : Bool) (d : RateCounters) :
    (bumpCounters rh nd ch cc d).rtoNotDelivered
      = d.rtoNotDelivered + (if rh && nd then 1 else 0) := by
  unfold bumpCounters
  cases rh <;> cases nd <;> cases ch <;> simp

theorem bumpCounters_cancelTotal (rh nd ch cc : Bool) (d : RateCounters) :
    (bumpCounters rh nd ch cc d).cancelTotal = d.cancelTotal + (if ch then 1 else 0) := by
  unfold bumpCounters
  cases rh <;> cases ch <;> simp

theorem bumpCounters_cancelCancelled (rh nd ch cc : Bool) (d : RateCounters) :
    (bumpCounters rh nd ch cc d).cancelCancelled
      = d.cancelCancelled + (if ch && cc then 1 else 0) := by
  unfold bumpCounters
  cases rh <;> cases ch <;> cases cc <;> simp

theorem countersFor_rateStep (srMap : String → Option ShiprocketRecord)
    (a b c d' : String) (pr : List (String × RateCounters)) (o : Order) (p : String) :
    countersFor p (rateStep srMap a b c d' pr o)
      = if truthyAttributed o = some p
        then bumpCounters (rtoHitOf srMap a b o) (notDeliveredOf srMap o)
              (cancelHitOf c d' o) (cancelledOf srMap o) (countersFor p pr)
        else countersFor p pr := by
  unfold rateStep
  cases hg : truthyAttributed o with
  | none => simp
  | some q =>
      by_cases hq : q = p
      · subst hq
        simp only [countersFor, lookupA_updateAList_self, Option.getD_some]
        simp
      · rw [show countersFor p (updateAList q
              (bumpCounters (rtoHitOf srMap a b o) (notDeliveredOf srMap o)
                (cancelHitOf c d' o) (cancelledOf srMap o)) zeroCounters pr)
            = countersFor p pr by
          unfold countersFor; rw [lookupA_updateAList_ne hq]]
        rw [if_neg (by simp [hq])]

theorem calcFold_field (srMap : String → Option ShiprocketRecord)
    (a b c d' : String) (p : String) (F : RateCounters → ℕ) (g : Order → Bool)
    (hF : ∀ (o : Order) (cnt : RateCounters),
      F (bumpCounters (rtoHitOf srMap a b o) (notDeliveredOf srMap o)
          (cancelHitOf c d' o) (cancelledOf srMap o) cnt)
        = F cnt + (if g o then 1 else 0)) :
    ∀ (orders : List Order) (pr : List (String × RateCounters)),
      F (countersFor p (orders.foldl (rateStep srMap a b c d') pr))
        = F (countersFor p pr)
          + (orders.filter (fun o => truthyAttributed o == some p && g o)).length
  | [], pr => by simp
  | o :: rest, pr => by
      rw [List.foldl_cons, calcFold_field srMap a b c d' p F g hF rest,
        countersFor_rateStep]
      by_cases hp : truthyAttributed o = some p
      · rw [if_pos hp, hF]
        cases hg : g o <;> simp [List.filter_cons, hp, hg] <;> omega
      · rw [if_neg hp]
        have hb : (truthyAttributed o == some p) = false := by
          simp [hp]
        simp [List.filter_cons, hb]

/-- C5: in `calcProductRates` (the counting pass of
`calculatePredictiveRates`), a historical order is counted in product `p`'s
`rtoTotal` exactly when it is attributed to `p` (with the JS-falsy
empty-string attribution skipped, mirroring `if (!attributedProduct)
return`), is COD, and its shipment record carries a truthy, non-sentinel
pickup timestamp whose date part lies inside the inclusive string window
`[rtoStart, rtoEnd]`; among those, `rtoNotDelivered` additionally counts
exactly the orders whose shipment status code is neither 6 nor 7
("delivered").  The third conjunct unfolds "attributed to `p`" — a truthy
attribution is a non-empty `getAttributedProduct` result — and the last two
conjuncts unfold the membership guards to the claim's wording.  (The window
endpoints are the `target − 14 days` / `target − 7 days` strings computed
by the route handler, which this theorem takes as inputs.) -/
theorem C5_rto_cohort (orders : List Order) (srMap : String → Option ShiprocketRecord)
    (rtoStart rtoEnd cancelStart cancelEnd : String) (p : String) :
    (countersFor p
        (calcProductRates orders srMap rtoStart rtoEnd cancelStart cancelEnd)).rtoTotal
        = (orders.filter (fun o =>
            truthyAttributed o == some p && rtoHitOf srMap rtoStart rtoEnd o)).length
    ∧ (countersFor p
        (calcProductRates orders srMap rtoStart rtoEnd cancelStart
          cancelEnd)).rtoNotDelivered
        = (orders.filter (fun o =>
            truthyAttributed o == some p
              && (rtoHitOf srMap rtoStart rtoEnd o && notDeliveredOf srMap o))).length
    ∧ (∀ o : Order, truthyAttributed o = some p
        ↔ (getAttributedProduct o = some p ∧ p ≠ ""))
    ∧ (∀ o : Order, rtoHitOf srMap rtoStart rtoEnd o = true
        ↔ (isCOD o = true ∧ ∃ r, shiprocketOf srMap o = some r
            ∧ ∃ ts, r.pickupTimestamp = some ts ∧ ts ≠ "" ∧ ts ≠ "0000-00-00 00:00:00"
              ∧ strLe rtoStart (beforeChar ' ' ts) = true
              ∧ strLe (beforeChar ' ' ts) rtoEnd = true))
    ∧ (∀ (o : Order) (r : ShiprocketRecord), shiprocketOf srMap o = some r →
        (notDeliveredOf srMap o = true ↔ ¬(r.status = some 6 ∨ r.status = some 7))) := by
  refine ⟨?_, ?_, ?_, ?_, ?_⟩
  · have h := calcFold_field srMap rtoStart rtoEnd cancelStart cancelEnd p
      (fun d => d.rtoTotal) (rtoHitOf srMap rtoStart rtoEnd)
      (fun o cnt => bumpCounters_rtoTotal _ _ _ _ _) orders []
    simpa [calcProductRates, countersFor, lookupA, zeroCounters] using h
  · have h := calcFold_field srMap rtoStart rtoEnd cancelStart cancelEnd p
      (fun d => d.rtoNotDelivered)
      (fun o => rtoHitOf srMap rtoStart rtoEnd o && notDeliveredOf srMap o)
      (fun o cnt => bumpCounters_rtoNotDelivered _ _ _ _ _) orders []
    simpa [calcProductRates, countersFor, lookupA, zeroCounters] using h
  · intro o
    unfold truthyAttributed
    cases hg : getAttributedProduct o with
    | none => simp
    | some q =>
        by_cases hq : q = ""
        · subst hq
          simp only [if_pos rfl]
          constructor
          · intro h
            exact absurd h (by simp)
          · rintro ⟨h1, h2⟩
            exact absurd (Option.some.inj h1).symm h2
        · simp only [if_neg hq]
          constructor
          · intro h
            have hqp := Option.some.inj h
            exact ⟨h, by rw [← hqp]; exact hq⟩
          · rintro ⟨h1, _⟩
            exact h1
  · intro o
    unfold rtoHitOf
    cases hsr : shiprocketOf srMap o with
    | none => simp
    | some r =>
        cases hts : r.pickupTimestamp with
        | none => simp [hts]
        | some ts => simp [hts, and_assoc]
  · intro o r hsr
    unfold notDeliveredOf
    rw [hsr]
    simp

/-- C6: in `calcProductRates`, a historical order is counted in product
`p`'s `cancelTotal` exactly when it is attributed to `p` (with the JS-falsy
empty-string attribution skipped, mirroring `if (!attributedProduct)
return`) and its IST creation date lies in the inclusive string window
`[cancelStart, cancelEnd]` — with no COD or shipment-record requirement;
among those, `cancelCancelled` additionally counts exactly the orders whose
shipment record exists and is cancelled (textual status
`'canceled'`/`'cancelled'` or provider status code 8).  The third conjunct
unfolds "attributed to `p`", and the last two conjuncts unfold the guards
to the claim's wording.  (The window endpoints are the `target − 7 days` /
`target − 1 day` strings computed by the route handler, taken as inputs.) -/
theorem C6_cancel_cohort (orders : List Order) (srMap : String → Option ShiprocketRecord)
    (rtoStart rtoEnd cancelStart cancelEnd : String) (p : String) :
    (countersFor p
        (calcProductRates orders srMap rtoStart rtoEnd cancelStart cancelEnd)).cancelTotal
        = (orders.filter (fun o =>
            truthyAttributed o == some p && cancelHitOf cancelStart cancelEnd o)).length
    ∧ (countersFor p
        (calcProductRates orders srMap rtoStart rtoEnd cancelStart
          cancelEnd)).cancelCancelled
        = (orders.filter (fun o =>
            truthyAttributed o == some p
              && (cancelHitOf cancelStart cancelEnd o && cancelledOf srMap o))).length
    ∧ (∀ o : Order, truthyAttributed o = some p
        ↔ (getAttributedProduct o = some p ∧ p ≠ ""))
    ∧ (∀ o : Order, cancelHitOf cancelStart cancelEnd o = true
        ↔ (strLe cancelStart o.createdAtIST = true
            ∧ strLe o.createdAtIST cancelEnd = true))
    ∧ (∀ o : Order, cancelledOf srMap o = true
        ↔ ∃ r, shiprocketOf srMap o = some r
            ∧ (r.mainStatus = "canceled" ∨ r.mainStatus = "cancelled"
                ∨ r.status = some 8)) := by
  refine ⟨?_, ?_, ?_, ?_, ?_⟩
  · have h := calcFold_field srMap rtoStart rtoEnd cancelStart cancelEnd p
      (fun d => d.cancelTotal) (cancelHitOf cancelStart cancelEnd)
      (fun o cnt => bumpCounters_cancelTotal _ _ _ _ _) orders []
    simpa [calcProductRates, countersFor, lookupA, zeroCounters] using h
  · have h := calcFold_field srMap rtoStart rtoEnd cancelStart cancelEnd p
      (fun d => d.cancelCancelled)
      (fun o => cancelHitOf cancelStart cancelEnd o && cancelledOf srMap o)
      (fun o cnt => bumpCounters_cancelCancelled _ _ _ _ _) orders []
    simpa [calcProductRates, countersFor, lookupA, zeroCounters] using h
  · intro o
    unfold truthyAttributed
    cases hg : getAttributedProduct o with
    | none => simp
    | some q =>
        by_cases hq : q = ""
        · subst hq
          simp only [if_pos rfl]
          constructor
          · intro h
            exact absurd h (by simp)
          · rintro ⟨h1, h2⟩
            exact absurd (Option.some.inj h1).symm h2
        · simp only [if_neg hq]
          constructor
          · intro h
            have hqp := Option.some.inj h
            exact ⟨h, by rw [← hqp]; exact hq⟩
          · rintro ⟨h1, _⟩
            exact h1
  · intro o
    unfold cancelHitOf
    simp
  · intro o
    unfold cancelledOf
    cases hsr : shiprocketOf srMap o with
    | none => simp
    | some r => simp [or_assoc]

/-- Witness for `C5_rto_cohort`: ten COD "widget" orders picked up inside
the RTO window, three of them not delivered; the implication hypothesis of
the last conjunct is discharged at order `#101` with its concrete shipment
record.  The final conjuncts exercise the JS-falsy edge: a COD order whose
lone item is named `"™"` gets the falsy attribution `""`, is skipped, and
the `""` cohort stays empty. -/
theorem C5_witness_cohort :
    (countersFor "widget" (calcProductRates wOrdersC3 wSrC3 "2024-01-01" "2024-01-08"
        "2024-01-10" "2024-01-16")).rtoTotal = 10
    ∧ (countersFor "widget" (calcProductRates wOrdersC3 wSrC3 "2024-01-01" "2024-01-08"
        "2024-01-10" "2024-01-16")).rtoNotDelivered = 3
    ∧ (notDeliveredOf wSrC3 (mkWidgetOrder 101 "#101") = true
        ↔ ¬(wShipPending.status = some 6 ∨ wShipPending.status = some 7))
    ∧ getAttributedProduct cxOrderTM = some ""
    ∧ truthyAttributed cxOrderTM = none
    ∧ (countersFor "" (calcProductRates [cxOrderTM] wSrC3 "2024-01-01" "2024-01-08"
        "2024-01-10" "2024-01-16")).rtoTotal = 0 := by
  refine ⟨?_, ?_, ?_, by with_unfolding_all rfl, by with_unfolding_all rfl, ?_⟩
  · rw [(C5_rto_cohort wOrdersC3 wSrC3 "2024-01-01" "2024-01-08"
        "2024-01-10" "2024-01-16" "widget").1]
    with_unfolding_all rfl
  · rw [(C5_rto_cohort wOrdersC3 wSrC3 "2024-01-01" "2024-01-08"
        "2024-01-10" "2024-01-16" "widget").2.1]
    with_unfolding_all rfl
  · exact (C5_rto_cohort wOrdersC3 wSrC3 "2024-01-01" "2024-01-08"
        "2024-01-10" "2024-01-16" "widget").2.2.2.2 (mkWidgetOrder 101 "#101")
      wShipPending (by with_unfolding_all rfl)
  · rw [(C5_rto_cohort [cxOrderTM] wSrC3 "2024-01-01" "2024-01-08"
        "2024-01-10" "2024-01-16" "").1]
    with_unfolding_all rfl

/-- C3: every `(product, rates)` pair output by `calculatePredictiveRates`
carries `predictiveRTO = 100 × rtoNotDelivered / rtoTotal` when the
product's `rtoTotal` cohort is nonempty and exactly 0 when it is empty
(the value is always defined — never a division of 0 by 0), and likewise
`predictiveCancel = 100 × cancelCancelled / cancelTotal` with the zero
default. -/
theorem C3_predictive_rate_formula (orders : List Order)
    (srMap : String → Option ShiprocketRecord) (rtoStart rtoEnd cancelStart cancelEnd : String)
    (p : String) (r : Rates)
    (hp : (p, r) ∈ calculatePredictiveRates orders srMap rtoStart rtoEnd
        cancelStart cancelEnd) :
    ∃ cnt : RateCounters,
      (p, cnt) ∈ calcProductRates orders srMap rtoStart rtoEnd cancelStart cancelEnd
      ∧ r.predictiveRTO
          = (if cnt.rtoTotal = 0 then 0
             else 100 * (cnt.rtoNotDelivered : ℚ) / (cnt.rtoTotal : ℚ))
      ∧ r.predictiveCancel
          = (if cnt.cancelTotal = 0 then 0
             else 100 * (cnt.cancelCancelled : ℚ) / (cnt.cancelTotal : ℚ)) := by
  unfold calculatePredictiveRates at hp
  obtain ⟨kv, hkv, hes⟩ := List.mem_map.1 hp
  obtain ⟨k1, cnt⟩ := kv
  obtain ⟨hk, hr⟩ := Prod.mk.injEq .. ▸ hes
  subst hk
  refine ⟨cnt, hkv, ?_, ?_⟩
  · rw [← hr]
    show (ratesOf cnt).predictiveRTO = _
    unfold ratesOf
    by_cases hz : cnt.rtoTotal = 0
    · simp [hz]
    · rw [if_pos (Nat.pos_of_ne_zero hz), if_neg hz]
      ring
  · rw [← hr]
    show (ratesOf cnt).predictiveCancel = _
    unfold ratesOf
    by_cases hz : cnt.cancelTotal = 0
    · simp [hz]
    · rw [if_pos (Nat.pos_of_ne_zero hz), if_neg hz]
      ring

/-- Witness for `C3_predictive_rate_formula`: the "widget" cohort with
`rtoTotal = 10`, `rtoNotDelivered = 3` yields `predictiveRTO = 30` exactly,
and an empty cancellation cohort yields `predictiveCancel = 0`. -/
theorem C3_witness_rates :
    (("widget", ({ predictiveRTO := 30, predictiveCancel := 0 } : Rates))
        ∈ calculatePredictiveRates wOrdersC3 wSrC3 "2024-01-01" "2024-01-08"
            "2024-01-10" "2024-01-16")
    ∧ (("widget", ({ rtoTotal := 10, rtoNotDelivered := 3, cancelTotal := 0,
                     cancelCancelled := 0 } : RateCounters))
        ∈ calcProductRates wOrdersC3 wSrC3 "2024-01-01" "2024-01-08"
            "2024-01-10" "2024-01-16")
    ∧ (∃ cnt : RateCounters,
        ("widget", cnt) ∈ calcProductRates wOrdersC3 wSrC3 "2024-01-01" "2024-01-08"
            "2024-01-10" "2024-01-16"
        ∧ ({ predictiveRTO := 30, predictiveCancel := 0 } : Rates).predictiveRTO
            = (if cnt.rtoTotal = 0 then 0
               else 100 * (cnt.rtoNotDelivered : ℚ) / (cnt.rtoTotal : ℚ))
        ∧ ({ predictiveRTO := 30, predictiveCancel := 0 } : Rates).predictiveCancel
            = (if cnt.cancelTotal = 0 then 0
               else 100 * (cnt.cancelCancelled : ℚ) / (cnt.cancelTotal : ℚ))) := by
  have hm : ("widget", ({ predictiveRTO := 30, predictiveCancel := 0 } : Rates))
      ∈ calculatePredictiveRates wOrdersC3 wSrC3 "2024-01-01" "2024-01-08"
          "2024-01-10" "2024-01-16" :=
    of_decide_eq_true (by with_unfolding_all rfl)
  refine ⟨hm, of_decide_eq_true (by with_unfolding_all rfl), ?_⟩
  exact C3_predictive_rate_formula wOrdersC3 wSrC3 "2024-01-01" "2024-01-08"
    "2024-01-10" "2024-01-16" "widget" _ hm

/-! ## Ad-spend prefix matching and CAC (claim C7) -/

theorem foldl_add_if (p : String → Bool) :
    ∀ (l : List (String × ℚ)) (acc : ℚ),
      l.foldl (fun a kv => if p kv.1 then a + kv.2 else a) acc
        = acc + ((l.filter (fun kv => p kv.1)).map (fun kv => kv.2)).sum
  | [], acc => by simp
  | kv :: rest, acc => by
      rw [List.foldl_cons, foldl_add_if p rest]
      by_cases h : p kv.1
      · rw [if_pos h]
        simp [List.filter_cons, h]
        ring
      · rw [if_neg h]
        simp [List.filter_cons, h]

theorem sumP_updateAList (P : String → Bool) (k : String) (v : ℚ) :
    ∀ m : List (String × ℚ),
      (((updateAList k (fun x => x + v) 0 m).filter (fun kv => P kv.1)).map
          (fun kv => kv.2)).sum
        = ((m.filter (fun kv => P kv.1)).map (fun kv => kv.2)).sum
          + (if P k then v else 0)
  | [] => by by_cases h : P k <;> simp [updateAList, List.filter_cons, h]
  | (k1, w) :: rest => by
      by_cases h1 : k1 = k
      · subst h1
        by_cases h : P k1 <;>
          simp [updateAList, List.filter_cons, h] <;> ring
      · by_cases h2 : P k1 <;>
          simp [updateAList, h1, List.filter_cons, h2, sumP_updateAList P k v rest] <;>
          ring

theorem sumP_build (P : String → Bool) :
    ∀ (cs : List (String × ℚ)) (m : List (String × ℚ)),
      (((cs.foldl (fun m c => updateAList (normCampaignName c.1) (fun x => x + c.2) 0 m)
            m).filter (fun kv => P kv.1)).map (fun kv => kv.2)).sum
        = ((m.filter (fun kv => P kv.1)).map (fun kv => kv.2)).sum
          + ((cs.filter (fun c => P (normCampaignName c.1))).map (fun c => c.2)).sum
  | [], m => by simp
  | c :: rest, m => by
      rw [List.foldl_cons, sumP_build P rest, sumP_updateAList]
      by_cases h : P (normCampaignName c.1) <;> simp [List.filter_cons, h] <;> ring

/-- C7: every SKU record's `adSpend` is the sum of the spends of exactly
those campaigns whose lower-cased, `'|'`-stripped, trimmed campaign name is
a prefix of the SKU's normalized product name (all matching campaigns add),
and `cac = adSpend / attributedOrders` when `attributedOrders > 0` and `0`
when it is `0`. -/
theorem C7_adspend_prefix_cac (orders : List Order) (campaigns : List (String × ℚ))
    (ss : String → Option String) (pr : String → Option Rates) (s : SkuOut)
    (hs : s ∈ (processOrders orders (buildAdSpendByProduct campaigns) ss pr).skus) :
    s.adSpend = ((campaigns.filter (fun c =>
        startsWithB (normalizeName s.productName) (normCampaignName c.1))).map
        (fun c => c.2)).sum
    ∧ s.cac = (if s.attributedOrders = 0 then 0
               else s.adSpend / (s.attributedOrders : ℚ)) := by
  have hskus : (processOrders orders (buildAdSpendByProduct campaigns) ss pr).skus
      = ((orders.foldl (processOrder ss) initPState).skuData).map
          (fun kv => finalizeSku (buildAdSpendByProduct campaigns)
            (orders.foldl (processOrder ss) initPState).productAttributionMap pr kv.2) :=
    rfl
  rw [hskus] at hs
  obtain ⟨kv, hkv, hfin⟩ := List.mem_map.1 hs
  have hpn : s.productName = kv.2.productName := by rw [← hfin]; rfl
  have hAd : s.adSpend
      = (buildAdSpendByProduct campaigns).foldl
          (fun a c => if startsWithB (normalizeName kv.2.productName) c.1
            then a + c.2 else a) 0 := by
    rw [← hfin]; rfl
  constructor
  · rw [hAd, hpn, foldl_add_if]
    have := sumP_build
      (fun q => startsWithB (normalizeName kv.2.productName) q) campaigns []
    simp only [List.filter_nil, List.map_nil, List.sum_nil, zero_add] at this ⊢
    exact this
  · have hgen : ∀ (n : ℕ) (x : ℚ),
        (if 0 < n then x / (n : ℚ) else 0) = (if n = 0 then 0 else x / (n : ℚ)) := by
      intro n x
      by_cases h : n = 0
      · simp [h]
      · rw [if_neg h, if_pos (Nat.pos_of_ne_zero h)]
    rw [← hfin]
    exact hgen _ _

/-- Witness for `C7_adspend_prefix_cac`: an order for "Alpha Pro" with three
campaigns — "Alpha | IN" (normalized "alpha", spend 50) and "alp" (spend 10)
both prefix-match "alpha pro" and add, while "beta" does not; one attributed
order gives `cac = 60 / 1`. -/
theorem C7_witness_adspend :
    (wSkuC7 ∈ (processOrders [wOrderC7] (buildAdSpendByProduct wCampaignsC7)
        noStatuses noRates).skus)
    ∧ (wSkuC7.adSpend = ((wCampaignsC7.filter (fun c =>
          startsWithB (normalizeName wSkuC7.productName) (normCampaignName c.1))).map
          (fun c => c.2)).sum
        ∧ wSkuC7.cac = (if wSkuC7.attributedOrders = 0 then 0
            else wSkuC7.adSpend / (wSkuC7.attributedOrders : ℚ)))
    ∧ wSkuC7.adSpend = 60 ∧ wSkuC7.attributedOrders = 1 ∧ wSkuC7.cac = 60 := by
  have hm : wSkuC7 ∈ (processOrders [wOrderC7] (buildAdSpendByProduct wCampaignsC7)
      noStatuses noRates).skus :=
    of_decide_eq_true (by with_unfolding_all rfl)
  refine ⟨hm, C7_adspend_prefix_cac [wOrderC7] wCampaignsC7 noStatuses noRates wSkuC7 hm,
    ?_, ?_, ?_⟩
  · with_unfolding_all rfl
  · with_unfolding_all rfl
  · with_unfolding_all rfl

/-! ## Attribution totality and determinism (claim C8) -/

/-- C8: `getAttributedProduct` is a total function of the order — it always
returns exactly one product key or the explicit `none` outcome (by
construction of the embedding it cannot throw), at most one key can be
returned for a given order, and applying it twice to the same order gives
the same result. -/
theorem C8_attribution_total_deterministic (o : Order) :
    (∀ k₁ k₂ : String, getAttributedProduct o = some k₁ →
        getAttributedProduct o = some k₂ → k₁ = k₂)
    ∧ getAttributedProduct o = getAttributedProduct o
    ∧ (getAttributedProduct o = none
        ∨ ∃ k : String, getAttributedProduct o = some k) := by
  refine ⟨?_, rfl, ?_⟩
  · intro k₁ k₂ h1 h2
    rw [h1] at h2
    exact Option.some.inj h2
  · cases h : getAttributedProduct o with
    | none => exact Or.inl rfl
    | some k => exact Or.inr ⟨k, rfl⟩

/-- Witness for `C8_attribution_total_deterministic` at a concrete
single-line-item order. -/
theorem C8_witness_attribution :
    getAttributedProduct wOrderC8 = some "widget" ∧ "widget" = "widget" := by
  have h : getAttributedProduct wOrderC8 = some "widget" := by
    with_unfolding_all rfl
  exact ⟨h, (C8_attribution_total_deterministic wOrderC8).1 "widget" "widget" h h⟩

/-! ## Partial-data tolerance and prepaid frame effect (claims C9, C10) -/

theorem foldItems_pres (P : SkuEntry → Prop) (c : Bool) (oid : ℕ) (status : String)
    (rev : LineItem → ℚ)
    (hstep : ∀ (r : ℚ) (e : SkuEntry), P e → P (itemStep c oid status r e))
    (hinit : ∀ (r : ℚ) (sku nm : String), P (itemStep c oid status r (initSku sku nm))) :
    ∀ (items : List LineItem) (sd : List (String × SkuEntry)),
      (∀ kv ∈ sd, P kv.2) →
      ∀ kv ∈ items.foldl
          (fun sd it =>
            updateAList (skuKeyOf it) (itemStep c oid status (rev it))
              (initSku (skuKeyOf it) it.name) sd) sd,
        P kv.2
  | [], _, h => h
  | it :: rest, sd, h => by
      refine foldItems_pres P c oid status rev hstep hinit rest _ ?_
      exact forall_updateAList (fun v hv => hstep (rev it) v hv)
        (hinit (rev it) (skuKeyOf it) it.name) h

theorem revenuePhase_counters (c : Bool) (r : ℚ) (e : SkuEntry) :
    (revenuePhase c r e).deliveredOrders = e.deliveredOrders
    ∧ (revenuePhase c r e).rtoOrders = e.rtoOrders
    ∧ (revenuePhase c r e).cancelledOrders = e.cancelledOrders
    ∧ (revenuePhase c r e).inTransitOrders = e.inTransitOrders := by
  unfold revenuePhase
  split <;> exact ⟨rfl, rfl, rfl, rfl⟩

theorem outcomePhase_unknown_counters (c : Bool) (oid : ℕ) (e : SkuEntry) :
    (outcomePhase c oid "unknown" e).deliveredOrders = e.deliveredOrders
    ∧ (outcomePhase c oid "unknown" e).rtoOrders = e.rtoOrders
    ∧ (outcomePhase c oid "unknown" e).cancelledOrders = e.cancelledOrders
    ∧ (outcomePhase c oid "unknown" e).inTransitOrders = e.inTransitOrders := by
  unfold outcomePhase
  repeat' split
  all_goals simp_all

theorem outcomePhase_prepaid_counters (oid : ℕ) (status : String) (e : SkuEntry) :
    (outcomePhase false oid status e).rtoOrders = e.rtoOrders
    ∧ (outcomePhase false oid status e).cancelledOrders = e.cancelledOrders
    ∧ (outcomePhase false oid status e).inTransitOrders = e.inTransitOrders := by
  unfold outcomePhase
  repeat' split
  all_goals simp_all

theorem itemStep_outcomesZero_unknown (c : Bool) (oid : ℕ) (r : ℚ) (e : SkuEntry)
    (h : outcomesZero e) : outcomesZero (itemStep c oid "unknown" r e) := by
  obtain ⟨h1, h2, h3, h4⟩ := h
  obtain ⟨r1, r2, r3, r4⟩ := revenuePhase_counters c r (outcomePhase c oid "unknown" e)
  obtain ⟨o1, o2, o3, o4⟩ := outcomePhase_unknown_counters c oid e
  exact ⟨by rw [itemStep, r1, o1, h1], by rw [itemStep, r2, o2, h2],
    by rw [itemStep, r3, o3, h3], by rw [itemStep, r4, o4, h4]⟩

theorem initSku_outcomesZero (sku nm : String) : outcomesZero (initSku sku nm) := by
  simp [outcomesZero, initSku]

theorem itemStep_codOutcomesZero (oid : ℕ) (status : String) (r : ℚ) (e : SkuEntry)
    (h : codOutcomesZero e) : codOutcomesZero (itemStep false oid status r e) := by
  obtain ⟨h1, h2, h3⟩ := h
  obtain ⟨_, r2, r3, r4⟩ := revenuePhase_counters false r (outcomePhase false oid status e)
  obtain ⟨o1, o2, o3⟩ := outcomePhase_prepaid_counters oid status e
  exact ⟨by rw [itemStep, r2, o1, h1], by rw [itemStep, r3, o2, h2],
    by rw [itemStep, r4, o3, h3]⟩

theorem processFold_outcomesZero (pr0 : String → Option Rates) :
    ∀ (orders : List Order) (st : PState),
      (∀ kv ∈ st.skuData, outcomesZero kv.2) →
      ∀ kv ∈ (orders.foldl (processOrder noStatuses) st).skuData, outcomesZero kv.2
  | [], _, h => h
  | o :: rest, st, h => by
      refine processFold_outcomesZero pr0 rest _ ?_
      rw [processOrder_skuData]
      have hstatus : statusOf noStatuses o = "unknown" := rfl
      rw [hstatus]
      exact foldItems_pres outcomesZero (isCOD o) o.id "unknown" (skuRevenueOf o)
        (fun r e he => itemStep_outcomesZero_unknown (isCOD o) o.id r e he)
        (fun r sku nm =>
          itemStep_outcomesZero_unknown (isCOD o) o.id r _ (initSku_outcomesZero sku nm))
        (o.line_items.getD []) st.skuData h

theorem processFold_codOutcomesZero (ss : String → Option String) :
    ∀ (orders : List Order) (st : PState),
      (∀ o ∈ orders, isCOD o = false) →
      (∀ kv ∈ st.skuData, codOutcomesZero kv.2) →
      ∀ kv ∈ (orders.foldl (processOrder ss) st).skuData, codOutcomesZero kv.2
  | [], _, _, h => h
  | o :: rest, st, hcod, h => by
      refine processFold_codOutcomesZero ss rest _
        (fun o' h' => hcod o' (List.mem_cons_of_mem _ h')) ?_
      rw [processOrder_skuData, hcod o (List.mem_cons_self _ _)]
      exact foldItems_pres codOutcomesZero false o.id (statusOf ss o) (skuRevenueOf o)
        (fun r e he => itemStep_codOutcomesZero o.id (statusOf ss o) r e he)
        (fun r sku nm => itemStep_codOutcomesZero o.id (statusOf ss o) r _
          (by simp [codOutcomesZero, initSku]))
        (o.line_items.getD []) st.skuData h

/-- C9: with an empty ad-spend map and an empty shipment-status map,
`processOrders` still returns a complete result: the order count is intact,
every order's status degrades to `'unknown'` so no outcome counter is ever
incremented, every SKU has `adSpend = 0` and `cac = 0`, and any product
missing from the predictive-rates map gets both predictive rates `0`. -/
theorem C9_partial_data_tolerance (orders : List Order) (pr : String → Option Rates)
    (s : SkuOut) (hs : s ∈ (processOrders orders [] noStatuses pr).skus) :
    (processOrders orders [] noStatuses pr).totalOrders = orders.length
    ∧ s.adSpend = 0 ∧ s.cac = 0
    ∧ s.deliveredOrders = 0 ∧ s.rtoOrders = 0 ∧ s.cancelledOrders = 0
    ∧ s.inTransitOrders = 0
    ∧ (pr (normalizeName s.productName) = none →
        s.predictiveRTO = 0 ∧ s.predictiveCancel = 0) := by
  have hskus : (processOrders orders [] noStatuses pr).skus
      = ((orders.foldl (processOrder noStatuses) initPState).skuData).map
          (fun kv => finalizeSku []
            (orders.foldl (processOrder noStatuses) initPState).productAttributionMap
            pr kv.2) := rfl
  rw [hskus] at hs
  obtain ⟨kv, hkv, hfin⟩ := List.mem_map.1 hs
  have hzero := processFold_outcomesZero pr orders initPState
    (by intro kv h; simp [initPState] at h) kv hkv
  obtain ⟨hz1, hz2, hz3, hz4⟩ := hzero
  have hAd : s.adSpend = 0 := by rw [← hfin]; rfl
  refine ⟨rfl, hAd, ?_, ?_, ?_, ?_, ?_, ?_⟩
  · have hcac : s.cac
        = (if 0 < s.attributedOrders then s.adSpend / (s.attributedOrders : ℚ) else 0) := by
      rw [← hfin]; rfl
    rw [hcac, hAd]
    by_cases h : 0 < s.attributedOrders <;> simp [h]
  · rw [← hfin]; exact hz1
  · rw [← hfin]; exact hz2
  · rw [← hfin]; exact hz3
  · rw [← hfin]; exact hz4
  · intro hnone
    have hpn : s.productName = kv.2.productName := by rw [← hfin]; rfl
    rw [hpn] at hnone
    constructor
    · rw [← hfin]
      show ((pr (normalizeName kv.2.productName)).getD ⟨0, 0⟩).predictiveRTO = 0
      rw [hnone]; rfl
    · rw [← hfin]
      show ((pr (normalizeName kv.2.productName)).getD ⟨0, 0⟩).predictiveCancel = 0
      rw [hnone]; rfl

/-- Witness for `C9_partial_data_tolerance`: one COD order run with empty
ad-spend and shipment-status feeds. -/
theorem C9_witness_partial_data :
    (wSkuC9 ∈ (processOrders [wOrderC9] [] noStatuses noRates).skus)
    ∧ ((processOrders [wOrderC9] [] noStatuses noRates).totalOrders = 1
        ∧ wSkuC9.adSpend = 0 ∧ wSkuC9.cac = 0
        ∧ wSkuC9.deliveredOrders = 0 ∧ wSkuC9.rtoOrders = 0
        ∧ wSkuC9.cancelledOrders = 0 ∧ wSkuC9.inTransitOrders = 0
        ∧ (noRates (normalizeName wSkuC9.productName) = none →
            wSkuC9.predictiveRTO = 0 ∧ wSkuC9.predictiveCancel = 0)) := by
  have hm : wSkuC9 ∈ (processOrders [wOrderC9] [] noStatuses noRates).skus :=
    of_decide_eq_true (by with_unfolding_all rfl)
  exact ⟨hm, C9_partial_data_tolerance [wOrderC9] noRates wSkuC9 hm⟩

/-- C10: the `rtoOrders`, `cancelledOrders` and `inTransitOrders` counters
of a SKU count COD orders only — in an all-prepaid batch they stay zero for
every SKU, whatever the shipment statuses say (a prepaid order can only
ever increment `deliveredOrders`). -/
theorem C10_prepaid_outcome_frame (orders : List Order)
    (hprepaid : ∀ o ∈ orders, isCOD o = false)
    (adMap : List (String × ℚ)) (ss : String → Option String)
    (pr : String → Option Rates) (s : SkuOut)
    (hs : s ∈ (processOrders orders adMap ss pr).skus) :
    s.rtoOrders = 0 ∧ s.cancelledOrders = 0 ∧ s.inTransitOrders = 0 := by
  have hskus : (processOrders orders adMap ss pr).skus
      = ((orders.foldl (processOrder ss) initPState).skuData).map
          (fun kv => finalizeSku adMap
            (orders.foldl (processOrder ss) initPState).productAttributionMap
            pr kv.2) := rfl
  rw [hskus] at hs
  obtain ⟨kv, hkv, hfin⟩ := List.mem_map.1 hs
  have hzero := processFold_codOutcomesZero ss orders initPState hprepaid
    (by intro kv h; simp [initPState] at h) kv hkv
  obtain ⟨hz1, hz2, hz3⟩ := hzero
  exact ⟨by rw [← hfin]; exact hz1, by rw [← hfin]; exact hz2,
    by rw [← hfin]; exact hz3⟩

/-- Witness for `C10_prepaid_outcome_frame`: a prepaid order whose shipment
status feed says `'rto'` still leaves `rtoOrders` (and the other two COD
counters) at zero. -/
theorem C10_witness_prepaid_frame :
    ((∀ o ∈ [wOrderC10], isCOD o = false)
      ∧ wSkuC10 ∈ (processOrders [wOrderC10] [] allRtoStatuses noRates).skus
      ∧ statusOf allRtoStatuses wOrderC10 = "rto")
    ∧ (wSkuC10.rtoOrders = 0 ∧ wSkuC10.cancelledOrders = 0
        ∧ wSkuC10.inTransitOrders = 0) := by
  have hcod : ∀ o ∈ [wOrderC10], isCOD o = false := by
    intro o ho
    rw [List.mem_singleton] at ho
    subst ho
    with_unfolding_all rfl
  have hm : wSkuC10 ∈ (processOrders [wOrderC10] [] allRtoStatuses noRates).skus :=
    of_decide_eq_true (by with_unfolding_all rfl)
  exact ⟨⟨hcod, hm, rfl⟩,
    C10_prepaid_outcome_frame [wOrderC10] hcod [] allRtoStatuses noRates wSkuC10 hm⟩

/-! ## Attribution priority (claim C2) -/

theorem foldl_pick_spec :
    ∀ (xs : List (String × ℚ)) (x : String × ℚ),
      (xs.foldl (fun best y => if y.2 > best.2 then y else best) x) ∈ x :: xs
      ∧ ∀ z ∈ x :: xs,
          z.2 ≤ (xs.foldl (fun best y => if y.2 > best.2 then y else best) x).2
  | [], x => by simp
  | y :: rest, x => by
      have ih := foldl_pick_spec rest (if y.2 > x.2 then y else x)
      rw [List.foldl_cons]
      have hpickx : x.2 ≤ (if y.2 > x.2 then y else x).2 := by
        by_cases hc : y.2 > x.2
        · rw [if_pos hc]; exact le_of_lt hc
        · rw [if_neg hc]
      have hpicky : y.2 ≤ (if y.2 > x.2 then y else x).2 := by
        by_cases hc : y.2 > x.2
        · rw [if_pos hc]
        · rw [if_neg hc]; exact le_of_not_lt hc
      have hpickmem : (if y.2 > x.2 then y else x) ∈ x :: y :: rest := by
        by_cases hc : y.2 > x.2
        · rw [if_pos hc]; exact List.mem_cons_of_mem _ (List.mem_cons_self _ _)
        · rw [if_neg hc]; exact List.mem_cons_self _ _
      constructor
      · rcases List.mem_cons.1 ih.1 with h | h
        · rw [h]; exact hpickmem
        · exact List.mem_cons_of_mem _ (List.mem_cons_of_mem _ h)
      · intro z hz
        have hpickle := ih.2 _ (List.mem_cons_self _ _)
        rcases List.mem_cons.1 hz with h | h
        · rw [h]; exact le_trans hpickx hpickle
        · rcases List.mem_cons.1 h with h' | h'
          · rw [h']; exact le_trans hpicky hpickle
          · exact ih.2 z (List.mem_cons_of_mem _ h')

theorem topPair_spec (m : List (String × ℚ)) (t : String × ℚ) (h : topPair m = some t) :
    t ∈ m ∧ ∀ z ∈ m, z.2 ≤ t.2 := by
  cases m with
  | nil => cases h
  | cons x xs =>
      have hsp := foldl_pick_spec xs x
      unfold topPair at h
      injection h with h
      rw [← h]
      exact hsp

theorem foldRM_keys_nodup :
    ∀ (items : List LineItem) (m : List (String × ℚ)),
      (m.map Prod.fst).Nodup →
      ((items.foldl (fun m it =>
          updateAList (normalizeName it.name) (fun r => r + itemRevenue it) 0 m) m).map
        Prod.fst).Nodup
  | [], _, h => h
  | it :: rest, m, h => foldRM_keys_nodup rest _ (keys_nodup_updateAList h)

theorem foldRM_nonneg :
    ∀ (items : List LineItem) (m : List (String × ℚ)),
      (∀ it ∈ items, 0 ≤ itemRevenue it) →
      (∀ kv ∈ m, 0 ≤ kv.2) →
      ∀ kv ∈ items.foldl (fun m it =>
          updateAList (normalizeName it.name) (fun r => r + itemRevenue it) 0 m) m,
        (0 : ℚ) ≤ kv.2
  | [], _, _, hm => hm
  | it :: rest, m, hi, hm => by
      refine foldRM_nonneg rest _
        (fun it' h' => hi it' (List.mem_cons_of_mem _ h')) ?_
      exact @forall_updateAList ℚ (fun v => (0 : ℚ) ≤ v) (normalizeName it.name)
        (fun r => r + itemRevenue it) 0
        (fun v hv => add_nonneg hv (hi it (List.mem_cons_self _ _)))
        (by simpa using hi it (List.mem_cons_self _ _)) m hm

theorem foldRM_ne_nil :
    ∀ (items : List LineItem) (m : List (String × ℚ)), m ≠ [] →
      items.foldl (fun m it =>
        updateAList (normalizeName it.name) (fun r => r + itemRevenue it) 0 m) m ≠ []
  | [], _, h => h
  | it :: rest, m, _ => foldRM_ne_nil rest _ (updateAList_ne_nil _ _ _ _)

theorem revenueMap_ne_nil (it : LineItem) (items : List LineItem) :
    revenueMap (it :: items) ≠ [] := by
  unfold revenueMap
  rw [List.foldl_cons]
  exact foldRM_ne_nil items _ (updateAList_ne_nil _ _ _ _)

theorem totalBucketRevenue_nonneg {m : List (String × ℚ)} (h : ∀ kv ∈ m, 0 ≤ kv.2) :
    0 ≤ totalBucketRevenue m := by
  refine List.sum_nonneg ?_
  intro q hq
  rcases List.mem_map.1 hq with ⟨kv, hkv, rfl⟩
  exact h kv hkv

theorem attributeFromLineItems_multi (it1 it2 : LineItem) (rest : List LineItem)
    (hnn : ∀ it ∈ it1 :: it2 :: rest, 0 ≤ itemRevenue it) :
    (∃ r : String × ℚ, r ∈ revenueMap (it1 :: it2 :: rest)
        ∧ 2 * r.2 > totalBucketRevenue (revenueMap (it1 :: it2 :: rest))
        ∧ attributeFromLineItems (it1 :: it2 :: rest) = some r.1
        ∧ ∀ kv ∈ revenueMap (it1 :: it2 :: rest),
            2 * kv.2 > totalBucketRevenue (revenueMap (it1 :: it2 :: rest)) → kv = r)
    ∨ (attributeFromLineItems (it1 :: it2 :: rest) = none
        ∧ ∀ kv ∈ revenueMap (it1 :: it2 :: rest),
            2 * kv.2 ≤ totalBucketRevenue (revenueMap (it1 :: it2 :: rest))) := by
  have hpos : ∀ kv ∈ revenueMap (it1 :: it2 :: rest), (0 : ℚ) ≤ kv.2 := by
    intro kv hkv
    refine foldRM_nonneg (it1 :: it2 :: rest) [] hnn (by simp) kv ?_
    exact hkv
  have hne : revenueMap (it1 :: it2 :: rest) ≠ [] := revenueMap_ne_nil it1 (it2 :: rest)
  obtain ⟨t, ht⟩ : ∃ t, topPair (revenueMap (it1 :: it2 :: rest)) = some t := by
    cases hq : revenueMap (it1 :: it2 :: rest) with
    | nil => exact absurd hq hne
    | cons x xs => exact ⟨_, rfl⟩
  obtain ⟨htm, hmax⟩ := topPair_spec _ t ht
  have hT0 : 0 ≤ totalBucketRevenue (revenueMap (it1 :: it2 :: rest)) :=
    totalBucketRevenue_nonneg hpos
  have heval : attributeFromLineItems (it1 :: it2 :: rest)
      = (if t.2 / totalBucketRevenue (revenueMap (it1 :: it2 :: rest)) > 1/2
         then some t.1 else none) := by
    show (match topPair (revenueMap (it1 :: it2 :: rest)) with
      | none => none
      | some top =>
          if top.2 / totalBucketRevenue (revenueMap (it1 :: it2 :: rest)) > 1/2
          then some top.1 else none) = _
    rw [ht]
  by_cases hgt : t.2 / totalBucketRevenue (revenueMap (it1 :: it2 :: rest)) > 1/2
  · left
    have hTpos : 0 < totalBucketRevenue (revenueMap (it1 :: it2 :: rest)) := by
      rcases eq_or_lt_of_le hT0 with h0 | h0
      · exfalso
        rw [← h0, div_zero] at hgt
        norm_num at hgt
      · exact h0
    have h2t : 2 * t.2 > totalBucketRevenue (revenueMap (it1 :: it2 :: rest)) := by
      rw [gt_iff_lt, lt_div_iff hTpos] at hgt
      linarith
    refine ⟨t, htm, h2t, by rw [heval, if_pos hgt], ?_⟩
    intro kv hkv hkv2
    by_contra hne'
    have hsum := two_values_le_sumVals hpos hkv htm hne'
    linarith
  · right
    refine ⟨by rw [heval, if_neg hgt], ?_⟩
    intro kv hkv
    have hle : kv.2 ≤ t.2 := hmax kv hkv
    rcases eq_or_lt_of_le hT0 with h0 | h0
    · have hv := value_le_sumVals hpos hkv
      rw [← h0] at hv ⊢
      linarith
    · rw [gt_iff_lt, lt_div_iff h0, not_lt] at hgt
      linarith

/-- C2 (amended): `getAttributedProduct` follows the layered priority — (1)
when the landing page parses and carries a `utm_campaign` whose normalized
prefix before the first `'_'` is *non-empty*, that prefix is returned; (2)
when the UTM extraction yields nothing usable (absent, unparseable, or a
JS-falsy empty prefix) and there is exactly one line item, the normalized
item name is returned; (3) in the same fall-through situation with two or
more (nonnegative-revenue) line items, the unique normalized-name bucket
whose revenue strictly exceeds half of the order's total item revenue is
returned, and `none` when no bucket exceeds half.  The original claim is
falsified by empty UTM prefixes, which fall through instead of being
returned, see `C2_counterexample_empty_utm_prefix`. -/
theorem C2_attribution_priority (o : Order) :
    (∀ p : String, extractProductFromUTM o.landing_site = some p → p ≠ "" →
        getAttributedProduct o = some p)
    ∧ (utmMiss o → ∀ it : LineItem, o.line_items.getD [] = [it] →
        getAttributedProduct o = some (normalizeName it.name))
    ∧ (utmMiss o → ∀ (it1 it2 : LineItem) (rest : List LineItem),
        o.line_items.getD [] = it1 :: it2 :: rest →
        (∀ it ∈ o.line_items.getD [], 0 ≤ itemRevenue it) →
        ((∃ r : String × ℚ, r ∈ revenueMap (o.line_items.getD [])
            ∧ 2 * r.2 > totalBucketRevenue (revenueMap (o.line_items.getD []))
            ∧ getAttributedProduct o = some r.1
            ∧ ∀ kv ∈ revenueMap (o.line_items.getD []),
                2 * kv.2 > totalBucketRevenue (revenueMap (o.line_items.getD [])) →
                  kv = r)
          ∨ (getAttributedProduct o = none
              ∧ ∀ kv ∈ revenueMap (o.line_items.getD []),
                  2 * kv.2 ≤ totalBucketRevenue (revenueMap (o.line_items.getD []))))) := by
  have hfall : utmMiss o →
      getAttributedProduct o = attributeFromLineItems (o.line_items.getD []) := by
    intro hmiss
    unfold getAttributedProduct
    rcases hmiss with h | h
    · rw [h]
    · rw [h]
      simp
  refine ⟨?_, ?_, ?_⟩
  · intro p hp hne
    unfold getAttributedProduct
    rw [hp]
    simp [hne]
  · intro hmiss it hit
    rw [hfall hmiss, hit]
    rfl
  · intro hmiss it1 it2 rest hit hnn
    rw [hit] at hnn
    rw [hfall hmiss, hit]
    exact attributeFromLineItems_multi it1 it2 rest hnn

/-- C2 counterexample: an order whose landing page parses with
`utm_campaign = "_pro"` — the claim's step 1 value is the prefix before the
first `'_'`, i.e. the empty string, but `getAttributedProduct` falls
through (the empty string is JS-falsy) and attributes the single line item
"Widget" instead. -/
theorem C2_counterexample_empty_utm_prefix :
    cxOrderC2.landing_site = LandingSite.parsed (some "_pro")
    ∧ extractProductFromUTM cxOrderC2.landing_site = some (utmPrefixOf "_pro")
    ∧ utmPrefixOf "_pro" = ""
    ∧ getAttributedProduct cxOrderC2 = some "widget"
    ∧ getAttributedProduct cxOrderC2 ≠ some (utmPrefixOf "_pro") := by
  have h1 : getAttributedProduct cxOrderC2 = some "widget" := by
    with_unfolding_all rfl
  have h2 : utmPrefixOf "_pro" = "" := by decide
  refine ⟨rfl, by with_unfolding_all rfl, h2, h1, ?_⟩
  rw [h1, h2]
  simp

/-- Witness for `C2_attribution_priority`: each priority layer exercised at
a concrete order — UTM prefix "premium" wins at layer 1; a lone line item
"Widget™ Deluxe" normalizes to "widget" at layer 2; an 80/20 revenue split
attributes "alpha" at layer 3. -/
theorem C2_witness_priority :
    (extractProductFromUTM wOrderC2u.landing_site = some "premium"
      ∧ getAttributedProduct wOrderC2u = some "premium")
    ∧ (utmMiss wOrderC2s
      ∧ getAttributedProduct wOrderC2s = some "widget")
    ∧ (utmMiss wOrderC2m
      ∧ (∀ it ∈ wOrderC2m.line_items.getD [], 0 ≤ itemRevenue it)
      ∧ getAttributedProduct wOrderC2m = some "alpha"
      ∧ ((∃ r : String × ℚ, r ∈ revenueMap (wOrderC2m.line_items.getD [])
            ∧ 2 * r.2 > totalBucketRevenue (revenueMap (wOrderC2m.line_items.getD []))
            ∧ getAttributedProduct wOrderC2m = some r.1
            ∧ ∀ kv ∈ revenueMap (wOrderC2m.line_items.getD []),
                2 * kv.2 > totalBucketRevenue (revenueMap (wOrderC2m.line_items.getD [])) →
                  kv = r)
          ∨ (getAttributedProduct wOrderC2m = none
              ∧ ∀ kv ∈ revenueMap (wOrderC2m.line_items.getD []),
                  2 * kv.2
                    ≤ totalBucketRevenue (revenueMap (wOrderC2m.line_items.getD []))))) := by
  have hu : extractProductFromUTM wOrderC2u.landing_site = some "premium" := by
    with_unfolding_all rfl
  have hne : ("premium" : String) ≠ "" := by decide
  have hmiss_s : utmMiss wOrderC2s := Or.inl rfl
  have hmiss_m : utmMiss wOrderC2m := Or.inl rfl
  have hnn : ∀ it ∈ wOrderC2m.line_items.getD [], (0 : ℚ) ≤ itemRevenue it :=
    of_decide_eq_true (by with_unfolding_all rfl)
  refine ⟨⟨hu, (C2_attribution_priority wOrderC2u).1 "premium" hu hne⟩,
    ⟨hmiss_s, ?_⟩,
    ⟨hmiss_m, hnn, by with_unfolding_all rfl, ?_⟩⟩
  · exact ((C2_attribution_priority wOrderC2s).2.1 hmiss_s
      (mkItem "Widget™ Deluxe" (some "W1") 100 1) rfl).trans (by decide)
  · exact (C2_attribution_priority wOrderC2m).2.2 hmiss_m
      (mkItem "Alpha" (some "A") 80 1) (mkItem "Beta" (some "B") 20 1) [] rfl hnn
